import Mathlib

/-!
Verification development for the control module of the Interstellar Armada
repository (src/control.js).  The controllers, the camera rig and the input
dispatcher are embedded from src/control.js.  The small vector/matrix helper
library used by control.js (normalizeVector, mul, translationMatrix, ...) is
not part of the sources; those helpers are modelled from the specification's
descriptions, as noted on each definition.  JavaScript numbers are modelled
by real numbers; thruster commands are recorded as a trace of emitted burn
commands in source order.
-/

namespace Armada

noncomputable section

/-- JS-style flat 4x4 matrix: index `k` holds the entry in row `k / 4`,
column `k % 4`; indices 12, 13, 14 hold the translation components. -/
def Mat : Type := ℕ → ℝ

/-- JS-style flat 3x3 matrix: index `k` holds entry (row `k / 3`, column `k % 3`). -/
def Mat3 : Type := ℕ → ℝ

/-- The 4x4 identity transform. -/
def idMat : Mat := fun k => if k = 0 ∨ k = 5 ∨ k = 10 ∨ k = 15 then 1 else 0

/-- Modelled from the spec: `nullMatrix4` of the repository's missing matrix
library; the identity transform, whose translation components are zero. -/
def nullMatrix4 : Mat := idMat

/-- Modelled from the spec: `mul` of the missing matrix library; the standard
4x4 matrix product on flat row-major arrays. -/
def mulM (a b : Mat) : Mat := fun k =>
  a (4 * (k / 4)) * b (k % 4) +
  a (4 * (k / 4) + 1) * b (4 + k % 4) +
  a (4 * (k / 4) + 2) * b (8 + k % 4) +
  a (4 * (k / 4) + 3) * b (12 + k % 4)

/-- Modelled from the spec: `matrix3from4`; the rotation (top-left 3x3) block
of a 4x4 transform. -/
def matrix3from4 (m : Mat) : Mat3 := fun k => m (4 * (k / 3) + k % 3)

/-- Modelled from the spec: `matrix4from3`; embeds a 3x3 matrix as a 4x4
transform with zero translation. -/
def matrix4from3 (m : Mat3) : Mat := fun k =>
  if k = 15 then 1
  else if k % 4 = 3 ∨ k / 4 = 3 then 0
  else m (3 * (k / 4) + k % 4)

/-- Modelled from the spec: `transposed3`; the transpose of a 3x3 matrix. -/
def transposed3 (m : Mat3) : Mat3 := fun k => m (3 * (k % 3) + k / 3)

/-- Modelled from the spec: determinant of a 3x3 matrix (helper for `inverse3`). -/
def det3 (m : Mat3) : ℝ :=
  m 0 * (m 4 * m 8 - m 5 * m 7) -
  m 1 * (m 3 * m 8 - m 5 * m 6) +
  m 2 * (m 3 * m 7 - m 4 * m 6)

/-- Modelled from the spec: `inverse3`; the adjugate-over-determinant inverse
of a 3x3 matrix. -/
def inverse3 (m : Mat3) : Mat3 := fun k =>
  (if k = 0 then m 4 * m 8 - m 5 * m 7
   else if k = 1 then m 2 * m 7 - m 1 * m 8
   else if k = 2 then m 1 * m 5 - m 2 * m 4
   else if k = 3 then m 5 * m 6 - m 3 * m 8
   else if k = 4 then m 0 * m 8 - m 2 * m 6
   else if k = 5 then m 2 * m 3 - m 0 * m 5
   else if k = 6 then m 3 * m 7 - m 4 * m 6
   else if k = 7 then m 1 * m 6 - m 0 * m 7
   else m 0 * m 4 - m 1 * m 3) / det3 m

/-- Modelled from the spec: `translationMatrix x y z`; the identity rotation
with translation components `x`, `y`, `z` at indices 12, 13, 14. -/
def translationMatrix (x y z : ℝ) : Mat := fun k =>
  if k = 12 then x else if k = 13 then y else if k = 14 then z else idMat k

/-- A 3-component vector (a JS `[x,y,z]` array). -/
structure V3 where
  x : ℝ
  y : ℝ
  z : ℝ

/-- A 2-component vector (a JS `[x,y]` array). -/
structure V2 where
  x : ℝ
  y : ℝ

/-- Modelled from the spec: `rotationMatrix4 axis angle`; the Rodrigues
rotation transform about `axis` by `angle`, as a 4x4 row-major array. -/
def rotationMatrix4 (a : V3) (t : ℝ) : Mat := fun k =>
  let c := Real.cos t
  let s := Real.sin t
  if k = 0 then c + a.x * a.x * (1 - c)
  else if k = 1 then a.x * a.y * (1 - c) + a.z * s
  else if k = 2 then a.x * a.z * (1 - c) - a.y * s
  else if k = 4 then a.y * a.x * (1 - c) - a.z * s
  else if k = 5 then c + a.y * a.y * (1 - c)
  else if k = 6 then a.y * a.z * (1 - c) + a.x * s
  else if k = 8 then a.z * a.x * (1 - c) + a.y * s
  else if k = 9 then a.z * a.y * (1 - c) - a.x * s
  else if k = 10 then c + a.z * a.z * (1 - c)
  else if k = 15 then 1
  else 0

/-- Modelled from the spec: `translationDistance2`; the squared distance
between the translation components of two transforms. -/
def translationDistance2 (a b : Mat) : ℝ :=
  (a 12 - b 12) ^ 2 + (a 13 - b 13) ^ 2 + (a 14 - b 14) ^ 2

/-- Squared Euclidean norm of a 3-vector (helper for the normalization model). -/
def normSq3 (v : V3) : ℝ := v.x ^ 2 + v.y ^ 2 + v.z ^ 2

/-- Squared Euclidean norm of a 2-vector. -/
def normSq2 (v : V2) : ℝ := v.x ^ 2 + v.y ^ 2

/-- Modelled from the spec: `normalizeVector`; divides a vector by its
Euclidean length.  The source divides unconditionally (a zero vector gives
NaN in JS); here division by zero yields the zero vector, and the
division-by-zero analysis below tracks the zero-argument case explicitly. -/
def normalizeVector (v : V3) : V3 :=
  let l := Real.sqrt (normSq3 v)
  ⟨v.x / l, v.y / l, v.z / l⟩

/-- Modelled from the spec: `normalizeVector2D`. -/
def normalizeVector2D (v : V2) : V2 :=
  let l := Real.sqrt (normSq2 v)
  ⟨v.x / l, v.y / l⟩

/-- Modelled from the spec: `vectorDotProduct`. -/
def vectorDotProduct (u v : V3) : ℝ := u.x * v.x + u.y * v.y + u.z * v.z

/-- Modelled from the spec: `crossProduct`. -/
def crossProduct (u v : V3) : V3 :=
  ⟨u.y * v.z - u.z * v.y, u.z * v.x - u.x * v.z, u.x * v.y - u.y * v.x⟩

/-- Modelled from the spec: `angleDifferenceOfUnitVectors`; the angle between
two unit vectors, computed as the arc cosine of their dot product. -/
def angleDifferenceOfUnitVectors (u v : V3) : ℝ :=
  Real.arccos (vectorDotProduct u v)

/-- Modelled from the spec: `angleDifferenceOfUnitVectors2D`. -/
def angleDifferenceOfUnitVectors2D (u v : V2) : ℝ :=
  Real.arccos (u.x * v.x + u.y * v.y)

/-- Modelled from the spec: `vector3Matrix3Product`; a row vector multiplied
by a 3x3 matrix. -/
def vector3Matrix3Product (v : V3) (m : Mat3) : V3 :=
  ⟨v.x * m 0 + v.y * m 3 + v.z * m 6,
   v.x * m 1 + v.y * m 4 + v.z * m 7,
   v.x * m 2 + v.y * m 5 + v.z * m 8⟩

/-- Modelled from the spec: `matrix3Vector3Product`; a 3x3 matrix applied to
a column vector. -/
def matrix3Vector3Product (v : V3) (m : Mat3) : V3 :=
  ⟨m 0 * v.x + m 1 * v.y + m 2 * v.z,
   m 3 * v.x + m 4 * v.y + m 5 * v.z,
   m 6 * v.x + m 7 * v.y + m 8 * v.z⟩

/-- The translation components of a transform, as a 3-vector. -/
def translationOf (m : Mat) : V3 := ⟨m 12, m 13, m 14⟩

/-- The physical state read by the controllers (src/control.js reads
`physicalModel.position/orientation/velocity/angularVelocity/mass/modelMatrixInverse`). -/
structure PhysicalModel where
  position : Mat
  orientation : Mat
  velocity : Mat
  angularVelocity : Mat
  mass : ℝ
  modelMatrixInverse : Mat

/-- Per-entity propulsion constants (`propulsion.class.thrust/angularThrust`). -/
structure PropulsionClass where
  thrust : ℝ
  angularThrust : ℝ

/-- The controlled entity as seen by src/control.js. -/
structure Entity where
  physicalModel : PhysicalModel
  propulsion : PropulsionClass

/-- Modelled from the spec (Actuator Primitive, spec section 4.1): the entity
method `getNeededBurnForAcc`, absent from the sources; burn fraction
`min(1, error * mass / thrust)`. -/
def getNeededBurnForAcc (e : Entity) (a : ℝ) : ℝ :=
  min 1 (a * e.physicalModel.mass / e.propulsion.thrust)

/-- Modelled from the spec (Actuator Primitive, spec section 4.1): the entity
method `getNeededBurnForAngularAcc`; for the angular case the error alone is
divided by the angular-thrust limit. -/
def getNeededBurnForAngularAcc (e : Entity) (a : ℝ) : ℝ :=
  min 1 (a / e.propulsion.angularThrust)

/-- The named thruster channels of the ThrusterBurnSet. -/
inductive Channel
  | forward
  | reverse
  | slideLeft
  | slideRight
  | raise
  | lower
  | yawLeft
  | yawRight
  | pitchUp
  | pitchDown
  | rollLeft
  | rollRight
deriving DecidableEq

/-- One command emitted by a controller during a tick, in source order:
`addThrusterBurn`, `addThrusterBurnCapped`, `addDirectionalThrusterBurn`, or a
weapon `fire` request.  `resetThrusterBurn` at the start of each invocation is
modelled by the trace starting empty. -/
inductive BurnCmd
  | burn (ch : Channel) (amount : ℝ)
  | burnCapped (ch : Channel) (amount cap : ℝ)
  | directional (dir : V3) (amount : ℝ)
  | fire

/-- A discrete key-press event, modelled by the value `getChar` extracts from
it: `some c` for a character key, `none` for a special key. -/
abbrev KEvent : Type := Option Char

/-- `TURNING_LIMIT` of both controllers (src/control.js lines 61, 250). -/
def TURNING_LIMIT : ℝ := 0.1

/-- `NUM_FLIGHTMODES` of the manual fighter controller. -/
def NUM_FLIGHTMODES : ℕ := 2

/-- `FM_INERTIAL`. -/
def FM_INERTIAL : ℕ := 0

/-- `FM_COMPENSATED`. -/
def FM_COMPENSATED : ℕ := 1

/-- The mutable state of a `FighterController`. -/
structure FighterState where
  flightMode : ℕ
  intendedSpeed : ℝ

/-- `speed2` as computed by both controllers:
`translationDistance2(physicalModel.velocity, nullMatrix4())`. -/
def speed2Of (e : Entity) : ℝ :=
  translationDistance2 e.physicalModel.velocity nullMatrix4

/-- `speed = Math.sqrt(speed2)`. -/
def speedOf (e : Entity) : ℝ := Real.sqrt (speed2Of e)

/-- `velocityVector`: the normalized velocity when the speed is positive, the
zero vector otherwise (src/control.js lines 78 and 265). -/
def velocityVectorOf (e : Entity) : V3 :=
  if speedOf e > 0 then normalizeVector (translationOf e.physicalModel.velocity)
  else ⟨0, 0, 0⟩

/-- `turningMatrix = mul(mul(orientation, angularVelocity),
matrix4from3(matrix3from4(modelMatrixInverse)))` (lines 87-92 and 273-278). -/
def turningMatrixOf (e : Entity) : Mat :=
  mulM (mulM e.physicalModel.orientation e.physicalModel.angularVelocity)
    (matrix4from3 (matrix3from4 e.physicalModel.modelMatrixInverse))

/-- `relativeVelocity = mul(velocity, matrix4from3(matrix3from4(modelMatrixInverse)))`
(src/control.js lines 80-82). -/
def relativeVelocityOf (e : Entity) : Mat :=
  mulM e.physicalModel.velocity
    (matrix4from3 (matrix3from4 e.physicalModel.modelMatrixInverse))

/-- The mode-toggle loop of `FighterController.prototype.control`
(src/control.js lines 94-101): walk the event queue by index; on an `'o'`
event, advance the flight mode modulo `NUM_FLIGHTMODES`, splice the event out
and compensate the index.  Returns the remaining queue and the final mode. -/
def fighterModeLoop (q : List KEvent) (i : ℕ) (m : ℕ) : List KEvent × ℕ :=
  if h : i < q.length then
    if q.get ⟨i, h⟩ = some 'o' then
      fighterModeLoop (q.eraseIdx i) i ((m + 1) % NUM_FLIGHTMODES)
    else
      fighterModeLoop q (i + 1) m
  else
    (q, m)
termination_by q.length - i
decreasing_by
  · have := List.length_eraseIdx_add_one h
    omega
  · omega

/-- The damping burn magnitude of the manual yaw policy (lines 160-167 and
170-177): `min(angularThrust, angle([0,1], normalize2D([tm4,tm5])) * mass)`. -/
def fighterYawBurn (e : Entity) : ℝ :=
  min e.propulsion.angularThrust
    (angleDifferenceOfUnitVectors2D ⟨0, 1⟩
        (normalizeVector2D ⟨turningMatrixOf e 4, turningMatrixOf e 5⟩) *
      e.physicalModel.mass)

/-- The damping burn magnitude of the manual pitch policy (lines 190-197 and
200-207): `min(angularThrust, angle([1,0], normalize2D([tm5,tm6])) * mass)`. -/
def fighterPitchBurn (e : Entity) : ℝ :=
  min e.propulsion.angularThrust
    (angleDifferenceOfUnitVectors2D ⟨1, 0⟩
        (normalizeVector2D ⟨turningMatrixOf e 5, turningMatrixOf e 6⟩) *
      e.physicalModel.mass)

/-- The damping burn magnitude of the manual roll policy (lines 220-227 and
230-237): `min(angularThrust, angle([1,0], normalize2D([tm0,tm2])) * mass)`. -/
def fighterRollBurn (e : Entity) : ℝ :=
  min e.propulsion.angularThrust
    (angleDifferenceOfUnitVectors2D ⟨1, 0⟩
        (normalizeVector2D ⟨turningMatrixOf e 0, turningMatrixOf e 2⟩) *
      e.physicalModel.mass)

/-- The post-toggle intended speed of one manual control invocation
(src/control.js lines 103-131): the `W` key raises the target by
thrust/mass, the `S` key lowers it clamped at zero, and backspace resets it,
all only in COMPENSATED mode. -/
def fighterNewIntendedSpeed (keys : ℕ → Bool) (mode : ℕ) (iS0 : ℝ)
    (e : Entity) : ℝ :=
  let iS1 :=
    if keys 87 ∧ mode = FM_COMPENSATED then
      iS0 + e.propulsion.thrust / e.physicalModel.mass
    else iS0
  let iS2 :=
    if keys 83 ∧ mode = FM_COMPENSATED then
      if iS1 - e.propulsion.thrust / e.physicalModel.mass < 0 then 0
      else iS1 - e.propulsion.thrust / e.physicalModel.mass
    else iS1
  if keys 8 ∧ mode = FM_COMPENSATED then 0 else iS2

/-- The COMPENSATED drift-correction burns (src/control.js lines 134-148)
for the strafe (index 12), vertical (index 14) and longitudinal (index 13)
components of the frame-relative velocity, against the intended speed
target `iS`. -/
def fighterCompTrace (e : Entity) (iS : ℝ) : List BurnCmd :=
  let rv := relativeVelocityOf e
  (if rv 12 < -0.0001 then
    [BurnCmd.burnCapped Channel.slideRight 0.5 (getNeededBurnForAcc e (-(rv 12)))]
  else if rv 12 > 0.0001 then
    [BurnCmd.burnCapped Channel.slideLeft 0.5 (getNeededBurnForAcc e (rv 12))]
  else []) ++
  (if rv 14 < -0.0001 then
    [BurnCmd.burnCapped Channel.raise 0.5 (getNeededBurnForAcc e (-(rv 14)))]
  else if rv 14 > 0.0001 then
    [BurnCmd.burnCapped Channel.lower 0.5 (getNeededBurnForAcc e (rv 14))]
  else []) ++
  (if rv 13 < iS - 0.0001 then
    [BurnCmd.burnCapped Channel.forward 0.5 (getNeededBurnForAcc e (iS - rv 13))]
  else if rv 13 > iS + 0.0001 then
    [BurnCmd.burnCapped Channel.reverse 0.5 (getNeededBurnForAcc e (rv 13 - iS))]
  else [])

/-- The manual yaw policy (src/control.js lines 150-179): key-held
acceleration limited by `TURNING_LIMIT`, else damping past the deadband. -/
def fighterYawTrace (keys : ℕ → Bool) (e : Entity) : List BurnCmd :=
  let tm := turningMatrixOf e
  if keys 37 then
    if tm 4 > -TURNING_LIMIT then [BurnCmd.burn Channel.yawLeft 0.5] else []
  else if keys 39 then
    if tm 4 < TURNING_LIMIT then [BurnCmd.burn Channel.yawRight 0.5] else []
  else if tm 4 < -0.0001 then
    [BurnCmd.burn Channel.yawRight (0.5 * fighterYawBurn e / e.propulsion.angularThrust)]
  else if tm 4 > 0.0001 then
    [BurnCmd.burn Channel.yawLeft (0.5 * fighterYawBurn e / e.propulsion.angularThrust)]
  else []

/-- The manual pitch policy (src/control.js lines 180-209). -/
def fighterPitchTrace (keys : ℕ → Bool) (e : Entity) : List BurnCmd :=
  let tm := turningMatrixOf e
  if keys 38 then
    if tm 6 > -TURNING_LIMIT then [BurnCmd.burn Channel.pitchDown 0.5] else []
  else if keys 40 then
    if tm 6 < TURNING_LIMIT then [BurnCmd.burn Channel.pitchUp 0.5] else []
  else if tm 6 < -0.0001 then
    [BurnCmd.burn Channel.pitchUp (0.5 * fighterPitchBurn e / e.propulsion.angularThrust)]
  else if tm 6 > 0.0001 then
    [BurnCmd.burn Channel.pitchDown (0.5 * fighterPitchBurn e / e.propulsion.angularThrust)]
  else []

/-- The manual roll policy (src/control.js lines 210-239). -/
def fighterRollTrace (keys : ℕ → Bool) (e : Entity) : List BurnCmd :=
  let tm := turningMatrixOf e
  if keys 34 then
    if tm 2 > -TURNING_LIMIT then [BurnCmd.burn Channel.rollRight 0.5] else []
  else if keys 33 then
    if tm 2 < TURNING_LIMIT then [BurnCmd.burn Channel.rollLeft 0.5] else []
  else if tm 2 < -0.0001 then
    [BurnCmd.burn Channel.rollLeft (0.5 * fighterRollBurn e / e.propulsion.angularThrust)]
  else if tm 2 > 0.0001 then
    [BurnCmd.burn Channel.rollRight (0.5 * fighterRollBurn e / e.propulsion.angularThrust)]
  else []

/-- `FighterController.prototype.control` (src/control.js lines 67-240).
Takes the controller state, the held-key snapshot, the discrete event queue
and the controlled entity; returns the new controller state, the remaining
event queue, and the trace of fire/burn commands in source order: the fire
request, the INERTIAL forward/reverse burns, the COMPENSATED drift
corrections, then the yaw, pitch and roll policies. -/
def fighterControl (st : FighterState) (keys : ℕ → Bool) (q : List KEvent)
    (e : Entity) : FighterState × List KEvent × List BurnCmd :=
  let fireT : List BurnCmd := if keys 70 then [BurnCmd.fire] else []
  let lm := fighterModeLoop q 0 st.flightMode
  let mode := lm.2
  let wT : List BurnCmd :=
    if keys 87 ∧ mode = FM_INERTIAL then [BurnCmd.burn Channel.forward 0.5] else []
  let sT : List BurnCmd :=
    if keys 83 ∧ mode = FM_INERTIAL then [BurnCmd.burn Channel.reverse 0.5] else []
  let iS3 : ℝ := fighterNewIntendedSpeed keys mode st.intendedSpeed e
  let compT : List BurnCmd :=
    if mode = FM_COMPENSATED then fighterCompTrace e iS3 else []
  (⟨mode, iS3⟩, lm.1,
    fireT ++ wT ++ sT ++ compT ++ fighterYawTrace keys e ++
      fighterPitchTrace keys e ++ fighterRollTrace keys e)

/-- A navigation goal: an immutable target world position (src/control.js
lines 242-244). -/
structure Goal where
  position : Mat

/-- `acc = thrust / mass` (line 261). -/
def aiAcc (e : Entity) : ℝ := e.propulsion.thrust / e.physicalModel.mass

/-- `turnAcc = angularThrust / mass` (line 262). -/
def aiTurnAcc (e : Entity) : ℝ := e.propulsion.angularThrust / e.physicalModel.mass

/-- The AI `directionVector`: the normalized forward row of the orientation
(line 264; the manual controller keeps the raw row instead). -/
def aiDirectionVector (e : Entity) : V3 :=
  normalizeVector
    ⟨e.physicalModel.orientation 4, e.physicalModel.orientation 5,
      e.physicalModel.orientation 6⟩

/-- `futureOrientation = mul(orientation, angularVelocity)` (line 266). -/
def futureOrientationOf (e : Entity) : Mat :=
  mulM e.physicalModel.orientation e.physicalModel.angularVelocity

/-- `futureDirectionVector` (line 267). -/
def futureDirectionVectorOf (e : Entity) : V3 :=
  normalizeVector
    ⟨futureOrientationOf e 4, futureOrientationOf e 5, futureOrientationOf e 6⟩

/-- `distance2 = translationDistance2(goal.position, physicalModel.position)`
(line 285). -/
def aiDistance2 (e : Entity) (g : Goal) : ℝ :=
  translationDistance2 g.position e.physicalModel.position

/-- `distance = Math.sqrt(distance2)` (line 286). -/
def aiDistance (e : Entity) (g : Goal) : ℝ := Real.sqrt (aiDistance2 e g)

/-- The raw (unnormalized) to-goal difference vector (lines 287-291). -/
def toGoalRaw (e : Entity) (g : Goal) : V3 :=
  ⟨g.position 12 - e.physicalModel.position 12,
   g.position 13 - e.physicalModel.position 13,
   g.position 14 - e.physicalModel.position 14⟩

/-- `toGoal = normalizeVector(goal.position - position)` (lines 287-291). -/
def toGoalOf (e : Entity) (g : Goal) : V3 := normalizeVector (toGoalRaw e g)

/-- `speedTowardsGoal = dot(velocityVector, toGoal) * speed` (line 292). -/
def aiSpeedTowardsGoal (e : Entity) (g : Goal) : ℝ :=
  vectorDotProduct (velocityVectorOf e) (toGoalOf e g) * speedOf e

/-- `angleToDesiredDirection = angle(directionVector, toGoal)` (line 295). -/
def aiAngleToGoal (e : Entity) (g : Goal) : ℝ :=
  angleDifferenceOfUnitVectors (aiDirectionVector e) (toGoalOf e g)

/-- `relativeToGoal = vector3Matrix3Product(toGoal, matrix3from4(modelMatrixInverse))`
(line 299). -/
def relativeToGoalOf (e : Entity) (g : Goal) : V3 :=
  vector3Matrix3Product (toGoalOf e g) (matrix3from4 e.physicalModel.modelMatrixInverse)

/-- `yawAngleDifference = angle2D([0,1], normalize2D([rtg0, rtg1]))` (lines 325-326). -/
def yawAngleDifferenceOf (e : Entity) (g : Goal) : ℝ :=
  angleDifferenceOfUnitVectors2D ⟨0, 1⟩
    (normalizeVector2D ⟨(relativeToGoalOf e g).x, (relativeToGoalOf e g).y⟩)

/-- `yawAngularVelocity = angle2D([0,1], normalize2D([tm4, tm5]))`
(lines 327-328; also recomputed at lines 384-385). -/
def yawAngularVelocityOf (e : Entity) : ℝ :=
  angleDifferenceOfUnitVectors2D ⟨0, 1⟩
    (normalizeVector2D ⟨turningMatrixOf e 4, turningMatrixOf e 5⟩)

/-- `pitchAngleDifference = angle2D([1,0], normalize2D([rtg1, rtg2]))` (lines 352-353). -/
def pitchAngleDifferenceOf (e : Entity) (g : Goal) : ℝ :=
  angleDifferenceOfUnitVectors2D ⟨1, 0⟩
    (normalizeVector2D ⟨(relativeToGoalOf e g).y, (relativeToGoalOf e g).z⟩)

/-- `pitchAngularVelocity = angle2D([1,0], normalize2D([tm5, tm6]))`
(lines 354-355; also recomputed at lines 391-392). -/
def pitchAngularVelocityOf (e : Entity) : ℝ :=
  angleDifferenceOfUnitVectors2D ⟨1, 0⟩
    (normalizeVector2D ⟨turningMatrixOf e 5, turningMatrixOf e 6⟩)

/-- `rollAngularVelocity = angle2D([1,0], normalize2D([tm0, tm2]))` (lines 400-401). -/
def rollAngularVelocityOf (e : Entity) : ℝ :=
  angleDifferenceOfUnitVectors2D ⟨1, 0⟩
    (normalizeVector2D ⟨turningMatrixOf e 0, turningMatrixOf e 2⟩)

/-- The AI longitudinal policy (src/control.js lines 306-323): braking when
receding, proportional braking with an optional 0.375 forward burn when
drifting, and the stopping-distance-gated 0.5 forward burn otherwise. -/
def aiLongTrace (e : Entity) (g : Goal) : List BurnCmd :=
  let speed := speedOf e
  let stg := aiSpeedTowardsGoal e g
  if stg < 0 then
    [BurnCmd.directional (velocityVectorOf e) (-0.5)]
  else if speed * 0.999 > stg then
    let burn :=
      -(min (e.propulsion.thrust * 0.25) ((speed - stg) / e.physicalModel.mass))
    BurnCmd.directional (velocityVectorOf e) (0.5 * burn / e.propulsion.thrust) ::
      (if 2 * aiDistance e g * aiAcc e > stg * stg ∧ aiAngleToGoal e g < 0.1 then
        [BurnCmd.burn Channel.forward 0.375]
      else
        let burn2 :=
          -(min (e.propulsion.thrust * 0.75) ((speed - stg) / e.physicalModel.mass))
        [BurnCmd.directional (velocityVectorOf e) (0.5 * burn2 / e.propulsion.thrust)])
  else if speed2Of e > 2 * aiDistance e g * aiAcc e then
    [BurnCmd.directional (velocityVectorOf e) (-0.5)]
  else
    [BurnCmd.burn Channel.forward 0.5]

/-- The AI yaw policy (src/control.js lines 330-350). -/
def aiYawTrace (e : Entity) (g : Goal) : List BurnCmd :=
  let tm := turningMatrixOf e
  let rtg := relativeToGoalOf e g
  if yawAngleDifferenceOf e g > 0.01 ∨ |tm 4| > 0.0001 then
    if rtg.x > 0.0001 then
      if tm 4 < TURNING_LIMIT ∧
          yawAngularVelocityOf e * yawAngularVelocityOf e <
            2 * yawAngleDifferenceOf e g * aiTurnAcc e then
        [BurnCmd.burn Channel.yawRight 0.5]
      else if tm 4 > 0.0001 then
        [BurnCmd.burnCapped Channel.yawLeft 0.5
            (getNeededBurnForAngularAcc e (yawAngularVelocityOf e))]
      else []
    else if rtg.x < -0.0001 then
      if tm 4 > -TURNING_LIMIT ∧
          yawAngularVelocityOf e * yawAngularVelocityOf e <
            2 * yawAngleDifferenceOf e g * aiTurnAcc e then
        [BurnCmd.burn Channel.yawLeft 0.5]
      else if tm 4 < -0.0001 then
        [BurnCmd.burnCapped Channel.yawRight 0.5
            (getNeededBurnForAngularAcc e (yawAngularVelocityOf e))]
      else []
    else []
  else []

/-- The AI pitch policy (src/control.js lines 357-377).  Note: exactly as in
the source, the stopping-distance check of the negative branch (line 370)
reads the yaw angular velocity and yaw angle difference. -/
def aiPitchTrace (e : Entity) (g : Goal) : List BurnCmd :=
  let tm := turningMatrixOf e
  let rtg := relativeToGoalOf e g
  if pitchAngleDifferenceOf e g > 0.01 ∨ |tm 6| > 0.0001 then
    if rtg.z > 0.0001 then
      if tm 6 < TURNING_LIMIT ∧
          pitchAngularVelocityOf e * pitchAngularVelocityOf e <
            2 * pitchAngleDifferenceOf e g * aiTurnAcc e then
        [BurnCmd.burn Channel.pitchUp 0.5]
      else if tm 6 > 0.0001 then
        [BurnCmd.burnCapped Channel.pitchDown 0.5
            (getNeededBurnForAngularAcc e (pitchAngularVelocityOf e))]
      else []
    else if rtg.z < -0.0001 then
      if tm 6 > -TURNING_LIMIT ∧
          yawAngularVelocityOf e * yawAngularVelocityOf e <
            2 * yawAngleDifferenceOf e g * aiTurnAcc e then
        [BurnCmd.burn Channel.pitchDown 0.5]
      else if tm 6 < -0.0001 then
        [BurnCmd.burnCapped Channel.pitchUp 0.5
            (getNeededBurnForAngularAcc e (pitchAngularVelocityOf e))]
      else []
    else []
  else []

/-- The AI idle policy for an empty goal queue (src/control.js lines 380-397):
brake to zero speed and damp the yaw and pitch rates. -/
def aiIdleTrace (e : Entity) : List BurnCmd :=
  let tm := turningMatrixOf e
  (if speedOf e > 0 then
    let burn := -(min e.propulsion.thrust (speedOf e * e.physicalModel.mass))
    [BurnCmd.directional (velocityVectorOf e) (0.5 * burn / e.propulsion.thrust)]
  else []) ++
  (if tm 4 > 0.0001 then
    [BurnCmd.burnCapped Channel.yawLeft 0.5
        (getNeededBurnForAngularAcc e (yawAngularVelocityOf e))]
  else if tm 4 < -0.0001 then
    [BurnCmd.burnCapped Channel.yawRight 0.5
        (getNeededBurnForAngularAcc e (yawAngularVelocityOf e))]
  else []) ++
  (if tm 6 > 0.0001 then
    [BurnCmd.burnCapped Channel.pitchDown 0.5
        (getNeededBurnForAngularAcc e (pitchAngularVelocityOf e))]
  else if tm 6 < -0.0001 then
    [BurnCmd.burnCapped Channel.pitchUp 0.5
        (getNeededBurnForAngularAcc e (pitchAngularVelocityOf e))]
  else [])

/-- The AI roll damping, which runs in every invocation (lines 400-407). -/
def aiRollTrace (e : Entity) : List BurnCmd :=
  let tm := turningMatrixOf e
  if tm 2 > 0.0001 then
    [BurnCmd.burnCapped Channel.rollRight 0.5
        (getNeededBurnForAngularAcc e (rollAngularVelocityOf e))]
  else if tm 2 < -0.0001 then
    [BurnCmd.burnCapped Channel.rollLeft 0.5
        (getNeededBurnForAngularAcc e (rollAngularVelocityOf e))]
  else []

/-- `AIController.prototype.control` (src/control.js lines 256-408): with a
non-empty goal queue either pop the head goal on arrival (distance below 0.5)
or run the longitudinal, yaw and pitch policies for it; with an empty queue
run the idle stabilization; always run the roll damping afterwards.  Returns
the new goal queue and the trace of burn commands in source order. -/
def aiControl (goals : List Goal) (e : Entity) : List Goal × List BurnCmd :=
  match goals with
  | [] => ([], aiIdleTrace e ++ aiRollTrace e)
  | g :: rest =>
    if aiDistance e g < 0.5 then
      (rest, aiRollTrace e)
    else
      (g :: rest, (aiLongTrace e g ++ aiYawTrace e g ++ aiPitchTrace e g) ++ aiRollTrace e)

/-- One vector-normalization occurrence in a controller invocation: the
condition under which the source performs it, paired with the squared norm of
the argument it receives.  A division by zero happens exactly when a
performed call has a zero squared norm. -/
abbrev NormCall : Type := Prop × ℝ

/-- The normalization calls of one `FighterController.prototype.control`
invocation, in source order: the guarded velocity normalization (line 78) and
the three damping-phase 2D normalizations (lines 165/175, 195/205, 225/235),
each performed only in the keyless damping branches where the tested
turning-matrix entry exceeds the deadband. -/
def fighterNormCalls (keys : ℕ → Bool) (e : Entity) : List NormCall :=
  let tm := turningMatrixOf e
  [(speedOf e > 0, normSq3 (translationOf e.physicalModel.velocity)),
   (¬keys 37 ∧ ¬keys 39 ∧ (tm 4 < -0.0001 ∨ tm 4 > 0.0001), normSq2 ⟨tm 4, tm 5⟩),
   (¬keys 38 ∧ ¬keys 40 ∧ (tm 6 < -0.0001 ∨ tm 6 > 0.0001), normSq2 ⟨tm 5, tm 6⟩),
   (¬keys 34 ∧ ¬keys 33 ∧ (tm 2 < -0.0001 ∨ tm 2 > 0.0001), normSq2 ⟨tm 0, tm 2⟩)]

/-- The guarded velocity normalization of `AIController.prototype.control`
(line 265): performed only when the speed is positive. -/
def aiVelocityNormCall (e : Entity) : NormCall :=
  (speedOf e > 0, normSq3 (translationOf e.physicalModel.velocity))

/-- The unconditional normalization calls at the top of
`AIController.prototype.control` (lines 264-271): the direction vector, the
guarded velocity vector, the future direction vector, the turning direction,
and the turning axis (the normalized cross product of the future and current
direction vectors). -/
def aiBaseNormCalls (e : Entity) : List NormCall :=
  [(True,
    normSq3
      ⟨e.physicalModel.orientation 4, e.physicalModel.orientation 5,
        e.physicalModel.orientation 6⟩),
   aiVelocityNormCall e,
   (True,
    normSq3
      ⟨futureOrientationOf e 4, futureOrientationOf e 5, futureOrientationOf e 6⟩),
   (True,
    normSq3
      ⟨e.physicalModel.angularVelocity 4, e.physicalModel.angularVelocity 5,
        e.physicalModel.angularVelocity 6⟩),
   (True,
    normSq3 (crossProduct (futureDirectionVectorOf e) (aiDirectionVector e)))]

/-- The normalization calls of the goal branch (lines 287, 325, 327, 352,
354): the to-goal vector is normalized before the arrival test; the four 2D
plane projections only when the goal is not yet reached. -/
def aiGoalNormCalls (e : Entity) (g : Goal) : List NormCall :=
  let tm := turningMatrixOf e
  let rtg := relativeToGoalOf e g
  [(True, normSq3 (toGoalRaw e g)),
   (¬(aiDistance e g < 0.5), normSq2 ⟨rtg.x, rtg.y⟩),
   (¬(aiDistance e g < 0.5), normSq2 ⟨tm 4, tm 5⟩),
   (¬(aiDistance e g < 0.5), normSq2 ⟨rtg.y, rtg.z⟩),
   (¬(aiDistance e g < 0.5), normSq2 ⟨tm 5, tm 6⟩)]

/-- All normalization calls of one `AIController.prototype.control`
invocation in source order: the unconditional head calls, then either the
goal-branch calls or the idle-branch calls (lines 384, 391), then the roll
projection (line 400). -/
def aiNormCalls (goals : List Goal) (e : Entity) : List NormCall :=
  let tm := turningMatrixOf e
  aiBaseNormCalls e ++
    (match goals with
    | [] => [(True, normSq2 ⟨tm 4, tm 5⟩), (True, normSq2 ⟨tm 5, tm 6⟩)]
    | g :: _ => aiGoalNormCalls e g) ++
    [(True, normSq2 ⟨tm 0, tm 2⟩)]

/-- The followed entity of a camera, exposing `getOrientation()` and
`getPosition()`. -/
structure FollowedObject where
  orientationM : Mat
  positionM : Mat

/-- The camera state read and written by `controlCamera` (the JS arrays
`angularVelocity` and `velocity` are used only at fixed indices 0-1 and 0-2
and are modelled by scalar fields). -/
structure CameraState where
  controllableDirection : Bool
  controllablePosition : Bool
  angularVelocity0 : ℝ
  angularVelocity1 : ℝ
  velocity0 : ℝ
  velocity1 : ℝ
  velocity2 : ℝ
  maxTurn : ℝ
  angularAcceleration : ℝ
  maxSpeed : ℝ
  acceleration : ℝ
  position : Mat
  orientation : Mat
  fov : ℝ
  followedObject : Option FollowedObject
  followPosition : Mat
  followOrientation : Mat

/-- The follow-mode orientation (src/control.js lines 593-600): the inverse
of the followed entity's orientation, composed with the fixed quarter-turn
about the x axis ("look in direction y instead of z") and the camera's
fixed local follow-orientation offset. -/
def followModeOrientation (obj : FollowedObject) (followOrientation : Mat) : Mat :=
  mulM
    (mulM (matrix4from3 (inverse3 (matrix3from4 obj.orientationM)))
      (rotationMatrix4 ⟨1, 0, 0⟩ (3.1415 / 2)))
    followOrientation

/-- `camPosition = mul(mul(followPosition, obj orientation), obj position)`
(lines 604-611). -/
def followModeCamPosition (obj : FollowedObject) (followPosition : Mat) : Mat :=
  mulM (mulM followPosition obj.orientationM) obj.positionM

/-- The follow-mode position (lines 612-617): the negated translation of the
composed follow transform. -/
def followModePosition (obj : FollowedObject) (followPosition : Mat) : Mat :=
  translationMatrix (-(followModeCamPosition obj followPosition 12))
    (-(followModeCamPosition obj followPosition 13))
    (-(followModeCamPosition obj followPosition 14))

/-- `controlCamera` (src/control.js lines 410-625): integrate the camera's
angular velocity and velocity from the held keys, advance a free camera's
transform by them, adjust the field of view, and for a camera bound to a
followed entity recompute position and orientation directly from the
followed transform and the local follow offset. -/
def controlCamera (keys : ℕ → Bool) (c : CameraState) : CameraState :=
  let av1a :=
    if c.controllableDirection then
      if keys 17 ∧ keys 37 then
        if c.angularVelocity1 < c.maxTurn then c.angularVelocity1 + c.angularAcceleration
        else c.angularVelocity1
      else
        if c.angularVelocity1 > 0 then
          c.angularVelocity1 - min c.angularAcceleration c.angularVelocity1
        else c.angularVelocity1
    else c.angularVelocity1
  let av1b :=
    if c.controllableDirection then
      if keys 17 ∧ keys 39 then
        if av1a > -c.maxTurn then av1a - c.angularAcceleration else av1a
      else
        if av1a < 0 then av1a + min c.angularAcceleration (-av1a) else av1a
    else av1a
  let av0a :=
    if c.controllableDirection then
      if keys 17 ∧ keys 38 then
        if c.angularVelocity0 < c.maxTurn then c.angularVelocity0 + c.angularAcceleration
        else c.angularVelocity0
      else
        if c.angularVelocity0 > 0 then
          c.angularVelocity0 - min c.angularAcceleration c.angularVelocity0
        else c.angularVelocity0
    else c.angularVelocity0
  let av0b :=
    if c.controllableDirection then
      if keys 17 ∧ keys 40 then
        if av0a > -c.maxTurn then av0a - c.angularAcceleration else av0a
      else
        if av0a < 0 then av0a + min c.angularAcceleration (-av0a) else av0a
    else av0a
  let v0a :=
    if c.controllablePosition then
      if keys 37 then
        if c.velocity0 < c.maxSpeed then c.velocity0 + c.acceleration else c.velocity0
      else
        if c.velocity0 > 0 then c.velocity0 - min c.acceleration c.velocity0
        else c.velocity0
    else c.velocity0
  let v0b :=
    if c.controllablePosition then
      if keys 39 then
        if v0a > -c.maxSpeed then v0a - c.acceleration else v0a
      else
        if v0a < 0 then v0a + min c.acceleration (-v0a) else v0a
    else v0a
  let v1a :=
    if c.controllablePosition then
      if keys 34 then
        if c.velocity1 < c.maxSpeed then c.velocity1 + c.acceleration else c.velocity1
      else
        if c.velocity1 > 0 then c.velocity1 - min c.acceleration c.velocity1
        else c.velocity1
    else c.velocity1
  let v1b :=
    if c.controllablePosition then
      if keys 33 then
        if v1a > -c.maxSpeed then v1a - c.acceleration else v1a
      else
        if v1a < 0 then v1a + min c.acceleration (-v1a) else v1a
    else v1a
  let v2a :=
    if c.controllablePosition then
      if keys 38 then
        if c.velocity2 < c.maxSpeed then c.velocity2 + c.acceleration else c.velocity2
      else
        if c.velocity2 > 0 then c.velocity2 - min c.acceleration c.velocity2
        else c.velocity2
    else c.velocity2
  let v2b :=
    if c.controllablePosition then
      if keys 40 then
        if v2a > -c.maxSpeed then v2a - c.acceleration else v2a
      else
        if v2a < 0 then v2a + min c.acceleration (-v2a) else v2a
    else v2a
  let freePosition :=
    match c.followedObject with
    | none =>
      let inverseOrientation := transposed3 (inverse3 (matrix3from4 c.orientation))
      let translation := matrix3Vector3Product ⟨v0b, v1b, v2b⟩ inverseOrientation
      mulM c.position (translationMatrix translation.x translation.y translation.z)
    | some _ => c.position
  let freeOrientation :=
    match c.followedObject with
    | none =>
      mulM (mulM c.orientation (rotationMatrix4 ⟨0, 1, 0⟩ av1b))
        (rotationMatrix4 ⟨1, 0, 0⟩ av0b)
    | some _ => c.orientation
  let fov1 := if keys 90 then c.fov - 1 else c.fov
  let fov2 := if keys 85 then fov1 + 1 else fov1
  match c.followedObject with
  | some obj =>
    let newOrientation := followModeOrientation obj c.followOrientation
    let newPosition := followModePosition obj c.followPosition
    let velocityMatrix :=
      mulM
        (translationMatrix (newPosition 12 - c.position 12)
          (newPosition 13 - c.position 13) (newPosition 14 - c.position 14))
        newOrientation
    { c with
      angularVelocity0 := av0b
      angularVelocity1 := av1b
      velocity0 := velocityMatrix 12
      velocity1 := velocityMatrix 13
      velocity2 := velocityMatrix 14
      position := newPosition
      orientation := newOrientation
      fov := fov2 }
  | none =>
    { c with
      angularVelocity0 := av0b
      angularVelocity1 := av1b
      velocity0 := v0b
      velocity1 := v1b
      velocity2 := v2b
      position := freePosition
      orientation := freeOrientation
      fov := fov2 }

/-- A visual-model subnode: whether its texture is the white hitbox texture,
and whether it is currently visible. -/
structure Subnode where
  white : Bool
  visible : Bool

/-- The controller attached to a spacecraft: a manual `FighterController`
with its state, or an `AIController` with its goal queue. -/
inductive ControllerTag
  | manual (st : FighterState)
  | auto (goals : List Goal)

/-- A spacecraft as touched by the dispatcher's event handlers. -/
structure Spacecraft where
  controller : ControllerTag
  subnodes : List Subnode

/-- The world state the dispatcher's discrete-event handlers mutate
(src/control.js lines 640-689): the spacecraft list, the light-rotation
flag, the active camera index, the followed-camera binding (recorded as the
index passed to `followCamera`), the camera-list length, and the ambient
random supply used when seeding an AI controller's goals. -/
structure WorldSt where
  spacecrafts : List Spacecraft
  lightTurn : Bool
  camIdx : ℤ
  followedCam : Option ℤ
  numCameras : ℕ
  randomGoal : ℕ → Goal

/-- The next-camera index update (line 644):
`activeCameraIndex = (activeCameraIndex + 1) % cameras.length`, with the
sign-of-dividend remainder of JS `%` (`Int.tmod`). -/
def nextCameraIndex (i : ℤ) (n : ℕ) : ℤ := Int.tmod (i + 1) n

/-- The previous-camera index update (line 649):
`activeCameraIndex = (activeCameraIndex - 1) % cameras.length`, with the
sign-of-dividend remainder of JS `%` (`Int.tmod`). -/
def prevCameraIndex (i : ℤ) (n : ℕ) : ℤ := Int.tmod (i - 1) n

/-- The `'0'` handler's per-spacecraft effect (lines 669-671): the goals of
the attached controller are replaced by an empty array (on a manual
controller the assignment only creates an unused property). -/
def clearGoalsTag : ControllerTag → ControllerTag
  | ControllerTag.manual st => ControllerTag.manual st
  | ControllerTag.auto _ => ControllerTag.auto []

/-- The `'h'` handler's per-spacecraft effect (lines 679-685): toggle the
visibility of every subnode with the white hitbox texture. -/
def toggleHitboxes (sc : Spacecraft) : Spacecraft :=
  { sc with
    subnodes :=
      sc.subnodes.map fun sn => if sn.white then ⟨sn.white, !sn.visible⟩ else sn }

/-- Replace the controller of the spacecraft at a given index, when the
index is within the list. -/
def setSpacecraftController (l : List Spacecraft) (i : ℕ) (t : ControllerTag) :
    List Spacecraft :=
  match l.get? i with
  | some sc => l.set i { sc with controller := t }
  | none => l

/-- The state effect of one discrete event in the dispatcher loop
(src/control.js lines 642-686): the handlers for next-camera `'c'`,
previous-camera `'x'`, set-manual `'m'`, set-autonomous `'n'`, stop-all
`'0'`, toggle-light-rotation `'l'` and toggle-hitboxes `'h'`, applied in
source order (at most one matches a given event). -/
def dispatchEffect (ev : KEvent) (w : WorldSt) : WorldSt :=
  let w1 :=
    if ev = some 'c' then
      let ni := nextCameraIndex w.camIdx w.numCameras
      { w with camIdx := ni, followedCam := some ni }
    else w
  let w2 :=
    if ev = some 'x' then
      let pi := prevCameraIndex w1.camIdx w1.numCameras
      { w1 with camIdx := pi, followedCam := some pi }
    else w1
  let w3 :=
    if ev = some 'm' then
      if w2.camIdx > 0 then
        { w2 with
          spacecrafts :=
            setSpacecraftController w2.spacecrafts (w2.camIdx - 1).toNat
              (ControllerTag.manual ⟨FM_INERTIAL, 0⟩) }
      else w2
    else w2
  let w4 :=
    if ev = some 'n' then
      if w3.camIdx > 0 then
        { w3 with
          spacecrafts :=
            setSpacecraftController w3.spacecrafts (w3.camIdx - 1).toNat
              (ControllerTag.auto ((List.range 10).map w3.randomGoal)) }
      else w3
    else w3
  let w5 :=
    if ev = some '0' then
      { w4 with
        spacecrafts :=
          w4.spacecrafts.map fun sc => { sc with controller := clearGoalsTag sc.controller } }
    else w4
  let w6 := if ev = some 'l' then { w5 with lightTurn := !w5.lightTurn } else w5
  if ev = some 'h' then { w6 with spacecrafts := w6.spacecrafts.map toggleHitboxes }
  else w6

/-- The value of the loop variable `i` after the handlers of one event have
run.  The `'0'` and `'h'` handlers reuse the function-scoped `var i` of the
surrounding event loop for their inner spacecraft loop (lines 669 and 679),
so they leave `i` equal to the spacecraft count; every other handler leaves
`i` unchanged. -/
def dispatchPostIndex (ev : KEvent) (i : ℕ) (w : WorldSt) : ℕ :=
  if ev = some '0' ∨ ev = some 'h' then w.spacecrafts.length else i

/-- The dispatcher's event loop (src/control.js lines 640-689): process the
event at index `i`, splice at the index the handlers left in `i`, decrement
and re-increment `i`, and continue while `i` is below the queue length.  The
fuel argument bounds the number of iterations; `controlEvents` supplies
enough fuel for the runs considered here. -/
def dispatchLoop : ℕ → List KEvent → ℕ → WorldSt → List KEvent × WorldSt
  | 0, q, _, w => (q, w)
  | fuel + 1, q, i, w =>
    if h : i < q.length then
      let ev := q.get ⟨i, h⟩
      let w2 := dispatchEffect ev w
      let i2 := dispatchPostIndex ev i w2
      dispatchLoop fuel (q.eraseIdx i2) i2 w2
    else (q, w)

/-- The discrete-event-queue portion of the dispatcher function `control`
(src/control.js lines 640-689), started at index 0 on the current queue. -/
def controlEvents (q : List KEvent) (w : WorldSt) : List KEvent × WorldSt :=
  dispatchLoop (2 * q.length + 2) q 0 w

end

/-! ### Theorems -/

/-- A concrete world: no spacecrafts, three cameras, active camera index 0. -/
noncomputable def world0 : WorldSt :=
  { spacecrafts := []
    lightTurn := false
    camIdx := 0
    followedCam := none
    numCameras := 3
    randomGoal := fun _ => ⟨idMat⟩ }

lemma dispatchEffect_c_camIdx (w : WorldSt) :
    (dispatchEffect (some 'c') w).camIdx = nextCameraIndex w.camIdx w.numCameras := rfl

lemma dispatchEffect_x_camIdx (w : WorldSt) :
    (dispatchEffect (some 'x') w).camIdx = prevCameraIndex w.camIdx w.numCameras := rfl

/-- C2 counterexample: with three cameras and active index 0, a
previous-camera event sets the active camera index to -1, which is not an
in-bounds index of the camera list (JS `%` keeps the dividend's sign). -/
theorem prev_camera_out_of_bounds :
    (dispatchEffect (some 'x') world0).camIdx = -1 ∧
      ¬(0 ≤ (dispatchEffect (some 'x') world0).camIdx ∧
          (dispatchEffect (some 'x') world0).camIdx < (world0.numCameras : ℤ)) := by
  constructor
  · rfl
  · intro h
    have h1 : (dispatchEffect (some 'x') world0).camIdx = -1 := rfl
    rw [h1] at h
    omega

/-- C2 amended: starting from an in-bounds active camera index, a
next-camera event always rebinds to an in-bounds index, and a
previous-camera event rebinds to an in-bounds index whenever the current
index is positive; at index 0 the previous-camera event produces -1, out of
bounds, because the JS remainder keeps the dividend's sign. -/
theorem camera_cycle_in_bounds_amended (w : WorldSt) (h0 : 0 ≤ w.camIdx)
    (h1 : w.camIdx < (w.numCameras : ℤ)) :
    (0 ≤ (dispatchEffect (some 'c') w).camIdx ∧
        (dispatchEffect (some 'c') w).camIdx < (w.numCameras : ℤ)) ∧
      (0 < w.camIdx →
        0 ≤ (dispatchEffect (some 'x') w).camIdx ∧
          (dispatchEffect (some 'x') w).camIdx < (w.numCameras : ℤ)) := by
  have hn : (0 : ℤ) < (w.numCameras : ℤ) := lt_of_le_of_lt h0 h1
  have hnz : (w.numCameras : ℤ) ≠ 0 := ne_of_gt hn
  constructor
  · rw [dispatchEffect_c_camIdx]
    unfold nextCameraIndex
    rw [Int.tmod_eq_emod (by omega) (by omega)]
    exact ⟨Int.emod_nonneg _ hnz, Int.emod_lt_of_pos _ hn⟩
  · intro hpos
    rw [dispatchEffect_x_camIdx]
    unfold prevCameraIndex
    rw [Int.tmod_eq_emod (by omega) (by omega)]
    exact ⟨Int.emod_nonneg _ hnz, Int.emod_lt_of_pos _ hn⟩

/-- Witness for the amended camera-cycling theorem at a concrete world with
active index 1 of 3 cameras. -/
theorem camera_cycle_in_bounds_amended_witness :
    (0 ≤ (dispatchEffect (some 'c') { world0 with camIdx := 1 }).camIdx ∧
        (dispatchEffect (some 'c') { world0 with camIdx := 1 }).camIdx <
          (({ world0 with camIdx := 1 } : WorldSt).numCameras : ℤ)) ∧
      (0 < ({ world0 with camIdx := 1 } : WorldSt).camIdx →
        0 ≤ (dispatchEffect (some 'x') { world0 with camIdx := 1 }).camIdx ∧
          (dispatchEffect (some 'x') { world0 with camIdx := 1 }).camIdx <
            (({ world0 with camIdx := 1 } : WorldSt).numCameras : ℤ)) :=
  camera_cycle_in_bounds_amended { world0 with camIdx := 1 } (by norm_num [world0])
    (by norm_num [world0])

/-- A concrete entity at the identity state: identity transforms, zero
velocity, zero angular rate, unit mass and unit propulsion limits. -/
noncomputable def ent0 : Entity :=
  { physicalModel :=
      { position := idMat
        orientation := idMat
        velocity := idMat
        angularVelocity := idMat
        mass := 1
        modelMatrixInverse := idMat }
    propulsion := { thrust := 1, angularThrust := 1 } }

lemma fighterModeLoop_eq (n : ℕ) :
    ∀ (q : List KEvent) (i m : ℕ), q.length - i ≤ n → m < NUM_FLIGHTMODES →
      fighterModeLoop q i m =
        (q.take i ++ (q.drop i).filter (fun ev => !(ev == some 'o')),
          (m + (q.drop i).count (some 'o')) % NUM_FLIGHTMODES) := by
  induction n with
  | zero =>
    intro q i m hn hm
    have hle : q.length ≤ i := by omega
    rw [fighterModeLoop]
    rw [dif_neg (by omega)]
    rw [List.take_of_length_le hle, List.drop_eq_nil_of_le hle]
    simp [Nat.mod_eq_of_lt hm]
  | succ n ih =>
    intro q i m hn hm
    by_cases h : i < q.length
    · rw [fighterModeLoop, dif_pos h]
      have hdrop : q.drop i = q.get ⟨i, h⟩ :: q.drop (i + 1) :=
        List.drop_eq_getElem_cons h
      by_cases ho : q.get ⟨i, h⟩ = some 'o'
      · rw [if_pos ho]
        have hlen : (q.eraseIdx i).length - i ≤ n := by
          have := List.length_eraseIdx_of_lt h
          omega
        rw [ih (q.eraseIdx i) i ((m + 1) % NUM_FLIGHTMODES) hlen
            (Nat.mod_lt _ (by norm_num [NUM_FLIGHTMODES]))]
        have htake : (q.eraseIdx i).take i = q.take i := by
          rw [List.eraseIdx_eq_take_drop_succ, List.take_append_eq_append_take]
          simp [List.length_take, min_eq_left (le_of_lt h)]
        have hdrop2 : (q.eraseIdx i).drop i = q.drop (i + 1) := by
          rw [List.eraseIdx_eq_take_drop_succ, List.drop_append_eq_append_drop]
          simp [List.length_take, min_eq_left (le_of_lt h)]
        have hfilter :
            (q.drop i).filter (fun ev => !(ev == some 'o')) =
              (q.drop (i + 1)).filter (fun ev => !(ev == some 'o')) := by
          rw [hdrop, ho, List.filter_cons, if_neg (by decide)]
        have hcount :
            (q.drop i).count (some 'o') = (q.drop (i + 1)).count (some 'o') + 1 := by
          rw [hdrop, ho, List.count_cons, if_pos (by decide)]
        rw [htake, hdrop2, Prod.mk.injEq, hfilter, hcount]
        refine ⟨rfl, ?_⟩
        simp only [NUM_FLIGHTMODES]
        omega
      · rw [if_neg ho]
        rw [ih q (i + 1) m (by omega) hm]
        have htake : q.take (i + 1) = q.take i ++ [q.get ⟨i, h⟩] := by
          rw [List.take_succ]
          simp [List.getElem?_eq_getElem h]
        have hb : (q.get ⟨i, h⟩ == some 'o') = false :=
          beq_eq_false_iff_ne.mpr ho
        have hfilter :
            (q.drop i).filter (fun ev => !(ev == some 'o')) =
              q.get ⟨i, h⟩ :: (q.drop (i + 1)).filter (fun ev => !(ev == some 'o')) := by
          rw [hdrop, List.filter_cons, hb, if_pos (by decide)]
        have hcount :
            (q.drop i).count (some 'o') = (q.drop (i + 1)).count (some 'o') := by
          rw [hdrop, List.count_cons, hb]
          simp
        rw [htake, Prod.mk.injEq, hfilter, hcount]
        exact ⟨by rw [List.append_assoc]; rfl, rfl⟩
    · rw [fighterModeLoop, dif_neg h]
      have hle : q.length ≤ i := by omega
      rw [List.take_of_length_le hle, List.drop_eq_nil_of_le hle]
      simp [Nat.mod_eq_of_lt hm]

/-- C10: one manual fighter control invocation removes exactly the queued
events whose character is `'o'`, leaving all other events in their original
order, and toggles the flight mode once per removed event, modulo the number
of flight modes. -/
theorem fighter_mode_toggle_queue (st : FighterState) (keys : ℕ → Bool)
    (q : List KEvent) (e : Entity) (hm : st.flightMode < NUM_FLIGHTMODES) :
    (fighterControl st keys q e).2.1 = q.filter (fun ev => !(ev == some 'o')) ∧
      (fighterControl st keys q e).1.flightMode =
        (st.flightMode + q.count (some 'o')) % NUM_FLIGHTMODES := by
  have h := fighterModeLoop_eq q.length q 0 st.flightMode (by omega) hm
  constructor
  · show (fighterModeLoop q 0 st.flightMode).1 = _
    rw [h]
    simp
  · show (fighterModeLoop q 0 st.flightMode).2 = _
    rw [h]
    simp

/-- Witness for the mode-toggle theorem: a queue with two `'o'` events, one
other character event and one special-key event. -/
theorem fighter_mode_toggle_queue_witness :
    (fighterControl ⟨0, 0⟩ (fun _ => false)
          [some 'o', some 'a', none, some 'o'] ent0).2.1 =
        ([some 'o', some 'a', none, some 'o'] :
            List KEvent).filter (fun ev => !(ev == some 'o')) ∧
      (fighterControl ⟨0, 0⟩ (fun _ => false)
            [some 'o', some 'a', none, some 'o'] ent0).1.flightMode =
        ((0 : ℕ) + ([some 'o', some 'a', none, some 'o'] :
            List KEvent).count (some 'o')) % NUM_FLIGHTMODES :=
  fighter_mode_toggle_queue ⟨0, 0⟩ (fun _ => false)
    [some 'o', some 'a', none, some 'o'] ent0 (by norm_num [NUM_FLIGHTMODES])

/-- A concrete goal at the origin. -/
noncomputable def goal0 : Goal := ⟨idMat⟩

/-- A concrete world with two AI-controlled spacecrafts. -/
noncomputable def world1 : WorldSt :=
  { spacecrafts :=
      [⟨ControllerTag.auto [goal0], []⟩, ⟨ControllerTag.auto [], []⟩]
    lightTurn := false
    camIdx := 0
    followedCam := none
    numCameras := 1
    randomGoal := fun _ => goal0 }

/-- C1 failing input: with two spacecrafts and the queue
`[stop-all, toggle-light]`, one dispatcher invocation leaves both events in
the queue (length 2, not 0) and never applies the toggle-light effect,
because the stop-all handler's inner loop reuses the function-scoped loop
variable `i`, leaving it at the spacecraft count.  The stop-all effect itself
is applied (both goal queues are cleared). -/
theorem control_event_loop_stuck :
    (controlEvents [some '0', some 'l'] world1).1.length = 2 ∧
      (controlEvents [some '0', some 'l'] world1).2.lightTurn = false ∧
      (controlEvents [some '0', some 'l'] world1).2.spacecrafts =
        [⟨ControllerTag.auto [], []⟩, ⟨ControllerTag.auto [], []⟩] :=
  ⟨rfl, rfl, rfl⟩

lemma speed2Of_eq_normSq3 (e : Entity) :
    speed2Of e = normSq3 (translationOf e.physicalModel.velocity) := by
  unfold speed2Of translationDistance2 nullMatrix4 idMat normSq3 translationOf
  norm_num

lemma normSq2_ne_zero_left {a b : ℝ} (h : a ≠ 0) : normSq2 ⟨a, b⟩ ≠ 0 := by
  unfold normSq2
  have h1 : 0 < a ^ 2 := by positivity
  have h2 : 0 ≤ b ^ 2 := sq_nonneg b
  intro h0
  simp only at h0
  nlinarith

/-- C3 amended: every normalization the manual fighter controller performs
receives a nonzero argument (the velocity normalization is guarded by the
positive-speed test, and each damping-phase 2D normalization only runs when
the projected turning-rate entry exceeds the deadband), and the autonomous
controller's velocity normalization is likewise guarded; the autonomous
controller's remaining normalizations are not all guarded (see the
counterexample). -/
theorem norm_calls_guarded_amended (keys : ℕ → Bool) (e : Entity) :
    (∀ c ∈ fighterNormCalls keys e, c.1 → c.2 ≠ 0) ∧
      ((aiVelocityNormCall e).1 → (aiVelocityNormCall e).2 ≠ 0) := by
  have hvel : speedOf e > 0 → normSq3 (translationOf e.physicalModel.velocity) ≠ 0 := by
    intro hs
    have := Real.sqrt_pos.mp hs
    rw [speed2Of_eq_normSq3] at this
    exact ne_of_gt this
  constructor
  · intro c hc
    simp only [fighterNormCalls, List.mem_cons, List.not_mem_nil, or_false] at hc
    rcases hc with rfl | rfl | rfl | rfl
    · exact hvel
    · rintro ⟨-, -, h | h⟩ <;> exact normSq2_ne_zero_left (by intro h0; rw [h0] at h; norm_num at h)
    · rintro ⟨-, -, h | h⟩ <;>
        · dsimp only
          unfold normSq2
          intro h0
          have h5 : (0:ℝ) ≤ turningMatrixOf e 5 ^ 2 := sq_nonneg _
          have h6 : turningMatrixOf e 6 ≠ 0 := by intro hz; rw [hz] at h; norm_num at h
          have h6p : 0 < turningMatrixOf e 6 ^ 2 := by positivity
          nlinarith
    · rintro ⟨-, -, h | h⟩ <;>
        · dsimp only
          unfold normSq2
          intro h0
          have h0p : (0:ℝ) ≤ turningMatrixOf e 0 ^ 2 := sq_nonneg _
          have h2 : turningMatrixOf e 2 ≠ 0 := by intro hz; rw [hz] at h; norm_num at h
          have h2p : 0 < turningMatrixOf e 2 ^ 2 := by positivity
          nlinarith
  · exact hvel

/-- The identity-state entity with velocity translation (3, 4, 0). -/
noncomputable def entV : Entity :=
  { ent0 with
    physicalModel := { ent0.physicalModel with velocity := translationMatrix 3 4 0 } }

/-- Witness for the amended normalization theorem: at a moving entity the
guarded velocity normalization is performed and its argument is nonzero. -/
theorem norm_calls_guarded_amended_witness : (aiVelocityNormCall entV).2 ≠ 0 := by
  refine (norm_calls_guarded_amended (fun _ => false) entV).2 ?_
  show speedOf entV > 0
  refine Real.sqrt_pos.mpr ?_
  unfold speed2Of translationDistance2
  norm_num [entV, ent0, translationMatrix, nullMatrix4, idMat]

lemma normalizeVector_of_unit {v : V3} (h : normSq3 v = 1) : normalizeVector v = v := by
  unfold normalizeVector
  rw [h, Real.sqrt_one]
  cases v
  simp

/-- C3 counterexample: at the identity state (zero angular velocity encoded
by an identity angular-velocity transform) the autonomous controller's
turning-axis normalization is performed unconditionally and receives the
zero cross product of two equal direction vectors, so not every performed
normalization of one `AIController` invocation has a nonzero argument. -/
theorem ai_turning_axis_zero_norm :
    ¬(∀ c ∈ aiNormCalls [] ent0, c.1 → c.2 ≠ 0) := by
  intro hall
  have hfo : futureOrientationOf ent0 4 = 0 ∧ futureOrientationOf ent0 5 = 1 ∧
      futureOrientationOf ent0 6 = 0 := by
    refine ⟨?_, ?_, ?_⟩ <;> norm_num [futureOrientationOf, ent0, mulM, idMat]
  have hfd : futureDirectionVectorOf ent0 = ⟨0, 1, 0⟩ := by
    unfold futureDirectionVectorOf
    rw [hfo.1, hfo.2.1, hfo.2.2]
    refine normalizeVector_of_unit ?_
    norm_num [normSq3]
  have hdv : aiDirectionVector ent0 = ⟨0, 1, 0⟩ := by
    unfold aiDirectionVector
    have h4 : ent0.physicalModel.orientation 4 = 0 := by norm_num [ent0, idMat]
    have h5 : ent0.physicalModel.orientation 5 = 1 := by norm_num [ent0, idMat]
    have h6 : ent0.physicalModel.orientation 6 = 0 := by norm_num [ent0, idMat]
    rw [h4, h5, h6]
    refine normalizeVector_of_unit ?_
    norm_num [normSq3]
  have hmem :
      ((True : Prop),
          normSq3 (crossProduct (futureDirectionVectorOf ent0) (aiDirectionVector ent0))) ∈
        aiNormCalls [] ent0 := by
    simp [aiNormCalls, aiBaseNormCalls]
  have hz :
      normSq3 (crossProduct (futureDirectionVectorOf ent0) (aiDirectionVector ent0)) = 0 := by
    rw [hfd, hdv]
    norm_num [crossProduct, normSq3]
  exact hall _ hmem trivial hz

/-- A command is a named-channel burn on one of the given channels (in
particular it is not a directional burn and not a fire request). -/
def onChannels (s : List Channel) : BurnCmd → Prop
  | BurnCmd.burn ch _ => ch ∈ s
  | BurnCmd.burnCapped ch _ _ => ch ∈ s
  | BurnCmd.directional _ _ => False
  | BurnCmd.fire => False

lemma aiYawTrace_channels (e : Entity) (g : Goal) :
    ∀ c ∈ aiYawTrace e g, onChannels [Channel.yawLeft, Channel.yawRight] c := by
  intro c hc
  unfold aiYawTrace at hc
  simp only at hc
  split_ifs at hc <;> simp_all [onChannels]

lemma aiPitchTrace_channels (e : Entity) (g : Goal) :
    ∀ c ∈ aiPitchTrace e g, onChannels [Channel.pitchUp, Channel.pitchDown] c := by
  intro c hc
  unfold aiPitchTrace at hc
  simp only at hc
  split_ifs at hc <;> simp_all [onChannels]

lemma aiRollTrace_channels (e : Entity) :
    ∀ c ∈ aiRollTrace e, onChannels [Channel.rollLeft, Channel.rollRight] c := by
  intro c hc
  unfold aiRollTrace at hc
  simp only at hc
  split_ifs at hc <;> simp_all [onChannels]

lemma speed2Of_nonneg (e : Entity) : 0 ≤ speed2Of e := by
  unfold speed2Of translationDistance2
  positivity

/-- C6: when the head goal is within the 0.5 arrival radius, one autonomous
control invocation removes exactly the head goal, and every burn command of
that tick is a roll-damping burn: no longitudinal, yaw, pitch or directional
burn is computed for the popped goal. -/
theorem ai_arrival_pops_head_goal (e : Entity) (g : Goal) (rest : List Goal)
    (h : aiDistance e g < 0.5) :
    (aiControl (g :: rest) e).1 = rest ∧
      ∀ c ∈ (aiControl (g :: rest) e).2,
        onChannels [Channel.rollLeft, Channel.rollRight] c := by
  have heq : aiControl (g :: rest) e = (rest, aiRollTrace e) := by
    show (if aiDistance e g < 0.5 then (rest, aiRollTrace e)
      else (g :: rest,
        (aiLongTrace e g ++ aiYawTrace e g ++ aiPitchTrace e g) ++ aiRollTrace e)) =
      (rest, aiRollTrace e)
    rw [if_pos h]
  rw [heq]
  exact ⟨rfl, fun c hc => aiRollTrace_channels e c hc⟩

/-- Witness for the arrival theorem: a goal 0.4 world units away from the
identity-state entity is popped with only roll damping possible. -/
theorem ai_arrival_pops_head_goal_witness :
    (aiControl [⟨translationMatrix 0.4 0 0⟩] ent0).1 = [] ∧
      ∀ c ∈ (aiControl [⟨translationMatrix 0.4 0 0⟩] ent0).2,
        onChannels [Channel.rollLeft, Channel.rollRight] c :=
  ai_arrival_pops_head_goal ent0 ⟨translationMatrix 0.4 0 0⟩ [] (by
    unfold aiDistance
    rw [Real.sqrt_lt' (by norm_num : (0:ℝ) < 0.5)]
    unfold aiDistance2 translationDistance2
    norm_num [ent0, translationMatrix, idMat])

/-- C9: with an empty goal queue and nonzero speed, one autonomous control
invocation emits a directional braking burn along the unit velocity vector
whose coefficient is strictly negative (it opposes the velocity direction)
and has magnitude at most 1. -/
theorem ai_idle_braking (e : Entity) (hs : speedOf e > 0)
    (ht : 0 < e.propulsion.thrust) (hm : 0 < e.physicalModel.mass) :
    ∃ a : ℝ, BurnCmd.directional (velocityVectorOf e) a ∈ (aiControl [] e).2 ∧
      a < 0 ∧ |a| ≤ 1 := by
  set t := e.propulsion.thrust with hT
  set s := speedOf e with hS
  set m := e.physicalModel.mass with hM
  have hmin : 0 < min t (s * m) := lt_min ht (by positivity)
  refine ⟨0.5 * -(min t (s * m)) / t, ?_, ?_, ?_⟩
  · show _ ∈ aiIdleTrace e ++ aiRollTrace e
    refine List.mem_append_left _ ?_
    unfold aiIdleTrace
    rw [if_pos hs]
    simp only [List.append_assoc, List.mem_append, List.mem_singleton]
    exact Or.inl trivial
  · have hnum : 0.5 * -(min t (s * m)) < 0 := by nlinarith
    exact div_neg_of_neg_of_pos hnum ht
  · have hmt : min t (s * m) ≤ t := min_le_left _ _
    rw [abs_div, abs_of_pos ht]
    rw [div_le_one ht]
    have : |0.5 * -(min t (s * m))| = 0.5 * min t (s * m) := by
      rw [abs_of_neg (by nlinarith)]
      ring
    rw [this]
    nlinarith

/-- Witness for the idle braking theorem at the moving identity-state
entity. -/
theorem ai_idle_braking_witness :
    ∃ a : ℝ, BurnCmd.directional (velocityVectorOf entV) a ∈ (aiControl [] entV).2 ∧
      a < 0 ∧ |a| ≤ 1 :=
  ai_idle_braking entV
    (Real.sqrt_pos.mpr (by
      unfold speed2Of translationDistance2
      norm_num [entV, ent0, translationMatrix, nullMatrix4, idMat]))
    (by norm_num [entV, ent0]) (by norm_num [entV, ent0])

/-- C5: with the head goal at distance at least 0.5, heading error zero,
velocity toward the goal (closing speed equal to the full speed, hence
nonnegative), and the stopping-distance check satisfied, one autonomous
control invocation applies the 0.5 forward burn and no directional braking
burn. -/
theorem ai_forward_burn_when_ahead (e : Entity) (g : Goal) (rest : List Goal)
    (hd : ¬(aiDistance e g < 0.5))
    (hhead : aiAngleToGoal e g = 0)
    (hstg : aiSpeedTowardsGoal e g = speedOf e)
    (hstop : speedOf e ^ 2 ≤ 2 * aiDistance e g * aiAcc e) :
    BurnCmd.burn Channel.forward 0.5 ∈ (aiControl (g :: rest) e).2 ∧
      ∀ (d : V3) (a : ℝ), BurnCmd.directional d a ∉ (aiControl (g :: rest) e).2 := by
  have heq :
      aiControl (g :: rest) e =
        (g :: rest,
          (aiLongTrace e g ++ aiYawTrace e g ++ aiPitchTrace e g) ++ aiRollTrace e) := by
    show (if aiDistance e g < 0.5 then (rest, aiRollTrace e)
      else (g :: rest,
        (aiLongTrace e g ++ aiYawTrace e g ++ aiPitchTrace e g) ++ aiRollTrace e)) = _
    rw [if_neg hd]
  have hsp : 0 ≤ speedOf e := Real.sqrt_nonneg _
  have hs2 : speed2Of e = speedOf e ^ 2 := (Real.sq_sqrt (speed2Of_nonneg e)).symm
  have hlong : aiLongTrace e g = [BurnCmd.burn Channel.forward 0.5] := by
    unfold aiLongTrace
    simp only
    rw [hstg]
    rw [if_neg (not_lt.mpr hsp)]
    rw [if_neg (by nlinarith : ¬(speedOf e * 0.999 > speedOf e))]
    rw [if_neg (not_lt.mpr (hs2 ▸ hstop))]
  rw [heq]
  constructor
  · rw [hlong]
    simp
  · intro d a hmem
    rw [hlong] at hmem
    simp only [List.mem_append, List.mem_singleton] at hmem
    rcases hmem with ((h | h) | h) | h
    · exact BurnCmd.noConfusion h
    · have := aiYawTrace_channels e g _ h
      simp [onChannels] at this
    · have := aiPitchTrace_channels e g _ h
      simp [onChannels] at this
    · have := aiRollTrace_channels e _ h
      simp [onChannels] at this

lemma normalizeVector_eval {v : V3} {l : ℝ} (hl : 0 < l) (h : normSq3 v = l ^ 2) :
    normalizeVector v = ⟨v.x / l, v.y / l, v.z / l⟩ := by
  unfold normalizeVector
  rw [h, Real.sqrt_sq hl.le]

lemma aiDirectionVector_id (e : Entity) (h : e.physicalModel.orientation = idMat) :
    aiDirectionVector e = ⟨0, 1, 0⟩ := by
  unfold aiDirectionVector
  rw [h]
  have hv : (⟨idMat 4, idMat 5, idMat 6⟩ : V3) = ⟨0, 1, 0⟩ := by
    norm_num [idMat]
  rw [hv]
  exact normalizeVector_of_unit (by norm_num [normSq3])

/-- The identity-state entity moving forward at speed 3. -/
noncomputable def entMove : Entity :=
  { ent0 with
    physicalModel := { ent0.physicalModel with velocity := translationMatrix 0 3 0 } }

/-- A goal 10 world units straight ahead of `entMove`. -/
noncomputable def goalAhead : Goal := ⟨translationMatrix 0 10 0⟩

lemma entMove_distance : aiDistance entMove goalAhead = 10 := by
  unfold aiDistance
  have h2 : aiDistance2 entMove goalAhead = 100 := by
    unfold aiDistance2 translationDistance2
    norm_num [entMove, ent0, goalAhead, translationMatrix, idMat]
  rw [h2, show (100 : ℝ) = 10 ^ 2 by norm_num, Real.sqrt_sq (by norm_num : (0:ℝ) ≤ 10)]

lemma entMove_toGoal : toGoalOf entMove goalAhead = ⟨0, 1, 0⟩ := by
  unfold toGoalOf
  have hraw : toGoalRaw entMove goalAhead = ⟨0, 10, 0⟩ := by
    unfold toGoalRaw
    norm_num [entMove, ent0, goalAhead, translationMatrix, idMat]
  rw [hraw, normalizeVector_eval (by norm_num : (0:ℝ) < 10) (by norm_num [normSq3])]
  norm_num

lemma entMove_speed_pos : 0 < speedOf entMove := by
  refine Real.sqrt_pos.mpr ?_
  unfold speed2Of translationDistance2
  norm_num [entMove, ent0, translationMatrix, nullMatrix4, idMat]

lemma entMove_velocityVector : velocityVectorOf entMove = ⟨0, 1, 0⟩ := by
  unfold velocityVectorOf
  rw [if_pos entMove_speed_pos]
  have hv : translationOf entMove.physicalModel.velocity = ⟨0, 3, 0⟩ := by
    unfold translationOf
    norm_num [entMove, ent0, translationMatrix, idMat]
  rw [hv, normalizeVector_eval (by norm_num : (0:ℝ) < 3) (by norm_num [normSq3])]
  norm_num

/-- Witness for the forward-burn theorem at the moving identity-state entity
with the goal directly ahead. -/
theorem ai_forward_burn_when_ahead_witness :
    BurnCmd.burn Channel.forward 0.5 ∈ (aiControl [goalAhead] entMove).2 ∧
      ∀ (d : V3) (a : ℝ), BurnCmd.directional d a ∉ (aiControl [goalAhead] entMove).2 :=
  ai_forward_burn_when_ahead entMove goalAhead []
    (by rw [entMove_distance]; norm_num)
    (by
      unfold aiAngleToGoal
      rw [entMove_toGoal, aiDirectionVector_id entMove rfl]
      unfold angleDifferenceOfUnitVectors vectorDotProduct
      norm_num [Real.arccos_one])
    (by
      unfold aiSpeedTowardsGoal
      rw [entMove_toGoal, entMove_velocityVector]
      unfold vectorDotProduct
      norm_num)
    (by
      rw [entMove_distance]
      have hs2 : speedOf entMove ^ 2 = speed2Of entMove :=
        Real.sq_sqrt (speed2Of_nonneg entMove)
      rw [hs2]
      have h9 : speed2Of entMove = 9 := by
        unfold speed2Of translationDistance2
        norm_num [entMove, ent0, translationMatrix, nullMatrix4, idMat]
      rw [h9]
      unfold aiAcc
      norm_num [entMove, ent0])

lemma turningMatrix_id_entries (e : Entity) (ho : e.physicalModel.orientation = idMat)
    (hm : e.physicalModel.modelMatrixInverse = idMat) (k : ℕ) (hk : k < 12) :
    turningMatrixOf e k = e.physicalModel.angularVelocity k := by
  unfold turningMatrixOf
  rw [ho, hm]
  interval_cases k <;>
    · norm_num [mulM, idMat, matrix4from3, matrix3from4]

lemma normalizeVector2D_eval {v : V2} {l : ℝ} (hl : 0 < l) (h : normSq2 v = l ^ 2) :
    normalizeVector2D v = ⟨v.x / l, v.y / l⟩ := by
  unfold normalizeVector2D
  rw [h, Real.sqrt_sq hl.le]

/-- A rotation of 45 degrees about the x axis, as a flat 4x4 transform. -/
noncomputable def rotX45 : Mat := fun k =>
  if k = 0 ∨ k = 15 then 1
  else if k = 5 ∨ k = 6 ∨ k = 10 then Real.sqrt 2 / 2
  else if k = 9 then -(Real.sqrt 2 / 2)
  else 0

/-- The identity-state entity turning about its pitch axis, with angular
acceleration limit 1/10. -/
noncomputable def ent4 : Entity :=
  { physicalModel := { ent0.physicalModel with angularVelocity := rotX45 }
    propulsion := { thrust := 1, angularThrust := 1 / 10 } }

/-- A goal at unit distance, to the right of and below `ent4`'s heading. -/
noncomputable def goal4 : Goal := ⟨translationMatrix (3 / 5) 0 (-(4 / 5))⟩

lemma ent4_tm4 : turningMatrixOf ent4 4 = 0 := by
  rw [turningMatrix_id_entries ent4 rfl rfl 4 (by norm_num)]
  norm_num [ent4, rotX45]

lemma ent4_tm5 : turningMatrixOf ent4 5 = Real.sqrt 2 / 2 := by
  rw [turningMatrix_id_entries ent4 rfl rfl 5 (by norm_num)]
  norm_num [ent4, rotX45]

lemma ent4_tm6 : turningMatrixOf ent4 6 = Real.sqrt 2 / 2 := by
  rw [turningMatrix_id_entries ent4 rfl rfl 6 (by norm_num)]
  norm_num [ent4, rotX45]

lemma ent4_tm2 : turningMatrixOf ent4 2 = 0 := by
  rw [turningMatrix_id_entries ent4 rfl rfl 2 (by norm_num)]
  norm_num [ent4, rotX45]

lemma sqrt2_half_pos : 0 < Real.sqrt 2 / 2 := by
  have : 0 < Real.sqrt 2 := Real.sqrt_pos.mpr (by norm_num)
  linarith

lemma sqrt2_half_sq : (Real.sqrt 2 / 2) ^ 2 = 1 / 2 := by
  rw [div_pow, Real.sq_sqrt (by norm_num : (0:ℝ) ≤ 2)]
  norm_num

lemma ent4_yawAV : yawAngularVelocityOf ent4 = 0 := by
  unfold yawAngularVelocityOf
  rw [ent4_tm4, ent4_tm5]
  rw [normalizeVector2D_eval sqrt2_half_pos (by
    unfold normSq2
    simp only
    rw [sqrt2_half_sq]
    norm_num)]
  unfold angleDifferenceOfUnitVectors2D
  simp only
  rw [div_self (ne_of_gt sqrt2_half_pos)]
  norm_num [Real.arccos_one]

lemma ent4_pitchAV : pitchAngularVelocityOf ent4 = Real.pi / 4 := by
  unfold pitchAngularVelocityOf
  rw [ent4_tm5, ent4_tm6]
  rw [normalizeVector2D_eval (by norm_num : (0:ℝ) < 1) (by
    unfold normSq2
    simp only
    rw [sqrt2_half_sq]
    norm_num)]
  unfold angleDifferenceOfUnitVectors2D
  simp only
  rw [div_one, one_mul, zero_mul, add_zero]
  rw [← Real.cos_pi_div_four]
  exact Real.arccos_cos (by positivity) (by linarith [Real.pi_pos])

lemma ent4_rtg : relativeToGoalOf ent4 goal4 = ⟨3 / 5, 0, -(4 / 5)⟩ := by
  unfold relativeToGoalOf
  have htg : toGoalOf ent4 goal4 = ⟨3 / 5, 0, -(4 / 5)⟩ := by
    unfold toGoalOf
    have hraw : toGoalRaw ent4 goal4 = ⟨3 / 5, 0, -(4 / 5)⟩ := by
      unfold toGoalRaw
      norm_num [ent4, ent0, goal4, translationMatrix, idMat]
    rw [hraw]
    exact normalizeVector_of_unit (by norm_num [normSq3])
  rw [htg]
  show vector3Matrix3Product _ (matrix3from4 ent4.physicalModel.modelMatrixInverse) = _
  have hid : ent4.physicalModel.modelMatrixInverse = idMat := rfl
  rw [hid]
  unfold vector3Matrix3Product matrix3from4
  norm_num [idMat]

lemma ent4_yawAD : yawAngleDifferenceOf ent4 goal4 = Real.pi / 2 := by
  unfold yawAngleDifferenceOf
  rw [ent4_rtg]
  rw [normalizeVector2D_eval (by norm_num : (0:ℝ) < 3 / 5) (by norm_num [normSq2])]
  unfold angleDifferenceOfUnitVectors2D
  norm_num [Real.arccos_zero]

lemma ent4_pitchAD : pitchAngleDifferenceOf ent4 goal4 = Real.pi / 2 := by
  unfold pitchAngleDifferenceOf
  rw [ent4_rtg]
  rw [normalizeVector2D_eval (by norm_num : (0:ℝ) < 4 / 5) (by norm_num [normSq2])]
  unfold angleDifferenceOfUnitVectors2D
  norm_num [Real.arccos_zero]

lemma ent4_turnAcc : aiTurnAcc ent4 = 1 / 10 := by
  unfold aiTurnAcc
  norm_num [ent4, ent0]

lemma ent4_dist : ¬(aiDistance ent4 goal4 < 0.5) := by
  unfold aiDistance
  have h2 : aiDistance2 ent4 goal4 = 1 := by
    unfold aiDistance2 translationDistance2
    norm_num [ent4, ent0, goal4, translationMatrix, idMat]
  rw [h2, Real.sqrt_one]
  norm_num

lemma ent4_pitchTrace : aiPitchTrace ent4 goal4 = [BurnCmd.burn Channel.pitchDown 0.5] := by
  unfold aiPitchTrace
  simp only
  rw [ent4_pitchAD, ent4_tm6, ent4_yawAV, ent4_yawAD, ent4_turnAcc, ent4_rtg]
  rw [if_pos (Or.inl (by linarith [Real.pi_gt_three]))]
  simp only
  rw [if_neg (by norm_num), if_pos (by norm_num)]
  rw [if_pos ⟨by unfold TURNING_LIMIT; linarith [sqrt2_half_pos],
    by nlinarith [Real.pi_gt_three]⟩]

/-- C4: at a concrete state reaching the negative pitch branch, the code
applies the 0.5 pitch-down acceleration burn because the branch's
stopping-distance check is formed from the yaw angular velocity and yaw
angle difference (src/control.js line 370), even though the corresponding
check formed from the pitch terms of that same axis fails there. -/
theorem ai_pitch_gate_mismatch :
    BurnCmd.burn Channel.pitchDown 0.5 ∈ (aiControl [goal4] ent4).2 ∧
      ¬(pitchAngularVelocityOf ent4 * pitchAngularVelocityOf ent4 <
          2 * pitchAngleDifferenceOf ent4 goal4 * aiTurnAcc ent4) := by
  constructor
  · have heq :
        aiControl [goal4] ent4 =
          ([goal4],
            (aiLongTrace ent4 goal4 ++ aiYawTrace ent4 goal4 ++ aiPitchTrace ent4 goal4) ++
              aiRollTrace ent4) := by
      show (if aiDistance ent4 goal4 < 0.5 then ([], aiRollTrace ent4)
        else ([goal4],
          (aiLongTrace ent4 goal4 ++ aiYawTrace ent4 goal4 ++ aiPitchTrace ent4 goal4) ++
            aiRollTrace ent4)) = _
      rw [if_neg ent4_dist]
    rw [heq]
    simp [ent4_pitchTrace]
  · rw [ent4_pitchAV, ent4_pitchAD, ent4_turnAcc]
    intro h
    nlinarith [Real.pi_gt_three]

/-- A command is a named-channel burn on the given channel. -/
def usesChannel (ch : Channel) : BurnCmd → Prop
  | BurnCmd.burn c _ => c = ch
  | BurnCmd.burnCapped c _ _ => c = ch
  | BurnCmd.directional _ _ => False
  | BurnCmd.fire => False

lemma onChannels_not_uses {s : List Channel} {ch : Channel} {c : BurnCmd}
    (h : onChannels s c) (hch : ch ∉ s) : ¬usesChannel ch c := by
  cases c with
  | burn c a => exact fun hu => hch (hu ▸ h)
  | burnCapped c a cap => exact fun hu => hch (hu ▸ h)
  | directional d a => exact h.elim
  | fire => exact h.elim

lemma fighterYawTrace_channels (keys : ℕ → Bool) (e : Entity) :
    ∀ c ∈ fighterYawTrace keys e, onChannels [Channel.yawLeft, Channel.yawRight] c := by
  intro c hc
  unfold fighterYawTrace at hc
  simp only at hc
  split_ifs at hc <;> simp_all [onChannels]

lemma fighterPitchTrace_channels (keys : ℕ → Bool) (e : Entity) :
    ∀ c ∈ fighterPitchTrace keys e, onChannels [Channel.pitchUp, Channel.pitchDown] c := by
  intro c hc
  unfold fighterPitchTrace at hc
  simp only at hc
  split_ifs at hc <;> simp_all [onChannels]

lemma fighterRollTrace_channels (keys : ℕ → Bool) (e : Entity) :
    ∀ c ∈ fighterRollTrace keys e, onChannels [Channel.rollLeft, Channel.rollRight] c := by
  intro c hc
  unfold fighterRollTrace at hc
  simp only at hc
  split_ifs at hc <;> simp_all [onChannels]

/-- C7: in COMPENSATED mode (the flight mode in effect after the mode-toggle
loop), for each of the strafe, vertical and longitudinal components of the
frame-relative velocity: a deviation within the 1e-4 deadband of its target
(zero, zero, and the intended speed) leaves the corresponding channels
untouched in the whole trace, while a deviation past the deadband emits the
capped corrective burn on the channel matching the deviation's sign. -/
theorem compensated_deadband (st : FighterState) (keys : ℕ → Bool)
    (q : List KEvent) (e : Entity)
    (hmode : (fighterModeLoop q 0 st.flightMode).2 = FM_COMPENSATED) :
    (|relativeVelocityOf e 12| ≤ 0.0001 →
      ∀ c ∈ (fighterControl st keys q e).2.2,
        ¬usesChannel Channel.slideLeft c ∧ ¬usesChannel Channel.slideRight c) ∧
    (relativeVelocityOf e 12 < -0.0001 →
      BurnCmd.burnCapped Channel.slideRight 0.5
          (getNeededBurnForAcc e (-(relativeVelocityOf e 12))) ∈
        (fighterControl st keys q e).2.2) ∧
    (relativeVelocityOf e 12 > 0.0001 →
      BurnCmd.burnCapped Channel.slideLeft 0.5
          (getNeededBurnForAcc e (relativeVelocityOf e 12)) ∈
        (fighterControl st keys q e).2.2) ∧
    (|relativeVelocityOf e 14| ≤ 0.0001 →
      ∀ c ∈ (fighterControl st keys q e).2.2,
        ¬usesChannel Channel.raise c ∧ ¬usesChannel Channel.lower c) ∧
    (relativeVelocityOf e 14 < -0.0001 →
      BurnCmd.burnCapped Channel.raise 0.5
          (getNeededBurnForAcc e (-(relativeVelocityOf e 14))) ∈
        (fighterControl st keys q e).2.2) ∧
    (relativeVelocityOf e 14 > 0.0001 →
      BurnCmd.burnCapped Channel.lower 0.5
          (getNeededBurnForAcc e (relativeVelocityOf e 14)) ∈
        (fighterControl st keys q e).2.2) ∧
    (|relativeVelocityOf e 13 - (fighterControl st keys q e).1.intendedSpeed| ≤ 0.0001 →
      ∀ c ∈ (fighterControl st keys q e).2.2,
        ¬usesChannel Channel.forward c ∧ ¬usesChannel Channel.reverse c) ∧
    (relativeVelocityOf e 13 <
        (fighterControl st keys q e).1.intendedSpeed - 0.0001 →
      BurnCmd.burnCapped Channel.forward 0.5
          (getNeededBurnForAcc e
            ((fighterControl st keys q e).1.intendedSpeed - relativeVelocityOf e 13)) ∈
        (fighterControl st keys q e).2.2) ∧
    (relativeVelocityOf e 13 >
        (fighterControl st keys q e).1.intendedSpeed + 0.0001 →
      BurnCmd.burnCapped Channel.reverse 0.5
          (getNeededBurnForAcc e
            (relativeVelocityOf e 13 - (fighterControl st keys q e).1.intendedSpeed)) ∈
        (fighterControl st keys q e).2.2) := by
  have hne : ¬(keys 87 ∧ (fighterModeLoop q 0 st.flightMode).2 = FM_INERTIAL) := by
    rintro ⟨-, h⟩
    rw [hmode] at h
    norm_num [FM_COMPENSATED, FM_INERTIAL] at h
  have hne2 : ¬(keys 83 ∧ (fighterModeLoop q 0 st.flightMode).2 = FM_INERTIAL) := by
    rintro ⟨-, h⟩
    rw [hmode] at h
    norm_num [FM_COMPENSATED, FM_INERTIAL] at h
  have hiS : (fighterControl st keys q e).1.intendedSpeed =
      fighterNewIntendedSpeed keys FM_COMPENSATED st.intendedSpeed e := by
    show fighterNewIntendedSpeed keys (fighterModeLoop q 0 st.flightMode).2
      st.intendedSpeed e = _
    rw [hmode]
  have htr : (fighterControl st keys q e).2.2 =
      (if keys 70 then [BurnCmd.fire] else []) ++
        fighterCompTrace e
          (fighterNewIntendedSpeed keys FM_COMPENSATED st.intendedSpeed e) ++
        fighterYawTrace keys e ++ fighterPitchTrace keys e ++
        fighterRollTrace keys e := by
    show (if keys 70 then [BurnCmd.fire] else []) ++
        (if keys 87 ∧ (fighterModeLoop q 0 st.flightMode).2 = FM_INERTIAL then
          [BurnCmd.burn Channel.forward 0.5] else []) ++
        (if keys 83 ∧ (fighterModeLoop q 0 st.flightMode).2 = FM_INERTIAL then
          [BurnCmd.burn Channel.reverse 0.5] else []) ++
        (if (fighterModeLoop q 0 st.flightMode).2 = FM_COMPENSATED then
          fighterCompTrace e
            (fighterNewIntendedSpeed keys (fighterModeLoop q 0 st.flightMode).2
              st.intendedSpeed e)
        else []) ++
        fighterYawTrace keys e ++ fighterPitchTrace keys e ++
        fighterRollTrace keys e = _
    rw [if_neg hne, if_neg hne2, hmode, if_pos rfl]
    simp
  rw [hiS, htr]
  set rv := relativeVelocityOf e with hrv
  set iS := fighterNewIntendedSpeed keys FM_COMPENSATED st.intendedSpeed e with hiSdef
  have hmem :
      ∀ c : BurnCmd, ∀ hc : c ∈
        (if keys 70 then [BurnCmd.fire] else []) ++
          fighterCompTrace e iS ++ fighterYawTrace keys e ++
          fighterPitchTrace keys e ++ fighterRollTrace keys e,
        c = BurnCmd.fire ∨ c ∈ fighterCompTrace e iS ∨
          onChannels [Channel.yawLeft, Channel.yawRight] c ∨
          onChannels [Channel.pitchUp, Channel.pitchDown] c ∨
          onChannels [Channel.rollLeft, Channel.rollRight] c := by
    intro c hc
    simp only [List.mem_append] at hc
    rcases hc with ((((hc | hc) | hc) | hc) | hc)
    · left
      split_ifs at hc <;> simp_all
    · right; left; exact hc
    · right; right; left; exact fighterYawTrace_channels keys e c hc
    · right; right; right; left; exact fighterPitchTrace_channels keys e c hc
    · right; right; right; right; exact fighterRollTrace_channels keys e c hc
  have hcompSplit : ∀ c ∈ fighterCompTrace e iS,
      c ∈ (if rv 12 < -0.0001 then
          [BurnCmd.burnCapped Channel.slideRight 0.5 (getNeededBurnForAcc e (-(rv 12)))]
        else if rv 12 > 0.0001 then
          [BurnCmd.burnCapped Channel.slideLeft 0.5 (getNeededBurnForAcc e (rv 12))]
        else []) ∨
      c ∈ (if rv 14 < -0.0001 then
          [BurnCmd.burnCapped Channel.raise 0.5 (getNeededBurnForAcc e (-(rv 14)))]
        else if rv 14 > 0.0001 then
          [BurnCmd.burnCapped Channel.lower 0.5 (getNeededBurnForAcc e (rv 14))]
        else []) ∨
      c ∈ (if rv 13 < iS - 0.0001 then
          [BurnCmd.burnCapped Channel.forward 0.5 (getNeededBurnForAcc e (iS - rv 13))]
        else if rv 13 > iS + 0.0001 then
          [BurnCmd.burnCapped Channel.reverse 0.5 (getNeededBurnForAcc e (rv 13 - iS))]
        else []) := by
    intro c hc
    unfold fighterCompTrace at hc
    simp only [List.mem_append] at hc
    tauto
  have hinComp : ∀ c ∈ fighterCompTrace e iS,
      c ∈ (if keys 70 then [BurnCmd.fire] else []) ++
        fighterCompTrace e iS ++ fighterYawTrace keys e ++
        fighterPitchTrace keys e ++ fighterRollTrace keys e := by
    intro c hc
    simp only [List.mem_append]
    tauto
  refine ⟨?_, ?_, ?_, ?_, ?_, ?_, ?_, ?_, ?_⟩
  · intro hdb c hc
    have hab := abs_le.mp hdb
    rcases hmem c hc with rfl | hc2 | hc2 | hc2 | hc2
    · exact ⟨fun h => h, fun h => h⟩
    · rcases hcompSplit c hc2 with hc3 | hc3 | hc3
      · split_ifs at hc3 with h1 h2
        · linarith [hab.1]
        · linarith [hab.2]
        · exact absurd hc3 (List.not_mem_nil c)
      · split_ifs at hc3 <;> simp_all [usesChannel]
      · split_ifs at hc3 <;> simp_all [usesChannel]
    · exact ⟨onChannels_not_uses hc2 (by decide), onChannels_not_uses hc2 (by decide)⟩
    · exact ⟨onChannels_not_uses hc2 (by decide), onChannels_not_uses hc2 (by decide)⟩
    · exact ⟨onChannels_not_uses hc2 (by decide), onChannels_not_uses hc2 (by decide)⟩
  · intro hlt
    refine hinComp _ ?_
    unfold fighterCompTrace
    simp only [List.mem_append]
    left
    rw [if_pos hlt]
    simp
  · intro hgt
    refine hinComp _ ?_
    unfold fighterCompTrace
    simp only [List.mem_append]
    left
    rw [if_neg (by linarith), if_pos hgt]
    simp
  · intro hdb c hc
    have hab := abs_le.mp hdb
    rcases hmem c hc with rfl | hc2 | hc2 | hc2 | hc2
    · exact ⟨fun h => h, fun h => h⟩
    · rcases hcompSplit c hc2 with hc3 | hc3 | hc3
      · split_ifs at hc3 <;> simp_all [usesChannel]
      · split_ifs at hc3 with h1 h2
        · linarith [hab.1]
        · linarith [hab.2]
        · exact absurd hc3 (List.not_mem_nil c)
      · split_ifs at hc3 <;> simp_all [usesChannel]
    · exact ⟨onChannels_not_uses hc2 (by decide), onChannels_not_uses hc2 (by decide)⟩
    · exact ⟨onChannels_not_uses hc2 (by decide), onChannels_not_uses hc2 (by decide)⟩
    · exact ⟨onChannels_not_uses hc2 (by decide), onChannels_not_uses hc2 (by decide)⟩
  · intro hlt
    refine hinComp _ ?_
    unfold fighterCompTrace
    simp only [List.mem_append]
    left; right
    rw [if_pos hlt]
    simp
  · intro hgt
    refine hinComp _ ?_
    unfold fighterCompTrace
    simp only [List.mem_append]
    left; right
    rw [if_neg (by linarith), if_pos hgt]
    simp
  · intro hdb c hc
    have hab := abs_le.mp hdb
    rcases hmem c hc with rfl | hc2 | hc2 | hc2 | hc2
    · exact ⟨fun h => h, fun h => h⟩
    · rcases hcompSplit c hc2 with hc3 | hc3 | hc3
      · split_ifs at hc3 <;> simp_all [usesChannel]
      · split_ifs at hc3 <;> simp_all [usesChannel]
      · split_ifs at hc3 with h1 h2
        · linarith [hab.1]
        · linarith [hab.2]
        · exact absurd hc3 (List.not_mem_nil c)
    · exact ⟨onChannels_not_uses hc2 (by decide), onChannels_not_uses hc2 (by decide)⟩
    · exact ⟨onChannels_not_uses hc2 (by decide), onChannels_not_uses hc2 (by decide)⟩
    · exact ⟨onChannels_not_uses hc2 (by decide), onChannels_not_uses hc2 (by decide)⟩
  · intro hlt
    refine hinComp _ ?_
    unfold fighterCompTrace
    simp only [List.mem_append]
    right
    rw [if_pos hlt]
    simp
  · intro hgt
    refine hinComp _ ?_
    unfold fighterCompTrace
    simp only [List.mem_append]
    right
    rw [if_neg (by linarith), if_pos hgt]
    simp

/-- A fighter controller state in COMPENSATED mode with zero intended speed. -/
noncomputable def fs7 : FighterState := ⟨1, 0⟩

/-- The all-released key snapshot. -/
def keys0 : ℕ → Bool := fun _ => false

/-- Witness for the COMPENSATED deadband theorem at the resting
identity-state entity with no keys held and an empty event queue. -/
theorem compensated_deadband_witness :
    (|relativeVelocityOf ent0 12| ≤ 0.0001 →
      ∀ c ∈ (fighterControl fs7 keys0 [] ent0).2.2,
        ¬usesChannel Channel.slideLeft c ∧ ¬usesChannel Channel.slideRight c) ∧
    (relativeVelocityOf ent0 12 < -0.0001 →
      BurnCmd.burnCapped Channel.slideRight 0.5
          (getNeededBurnForAcc ent0 (-(relativeVelocityOf ent0 12))) ∈
        (fighterControl fs7 keys0 [] ent0).2.2) ∧
    (relativeVelocityOf ent0 12 > 0.0001 →
      BurnCmd.burnCapped Channel.slideLeft 0.5
          (getNeededBurnForAcc ent0 (relativeVelocityOf ent0 12)) ∈
        (fighterControl fs7 keys0 [] ent0).2.2) ∧
    (|relativeVelocityOf ent0 14| ≤ 0.0001 →
      ∀ c ∈ (fighterControl fs7 keys0 [] ent0).2.2,
        ¬usesChannel Channel.raise c ∧ ¬usesChannel Channel.lower c) ∧
    (relativeVelocityOf ent0 14 < -0.0001 →
      BurnCmd.burnCapped Channel.raise 0.5
          (getNeededBurnForAcc ent0 (-(relativeVelocityOf ent0 14))) ∈
        (fighterControl fs7 keys0 [] ent0).2.2) ∧
    (relativeVelocityOf ent0 14 > 0.0001 →
      BurnCmd.burnCapped Channel.lower 0.5
          (getNeededBurnForAcc ent0 (relativeVelocityOf ent0 14)) ∈
        (fighterControl fs7 keys0 [] ent0).2.2) ∧
    (|relativeVelocityOf ent0 13 - (fighterControl fs7 keys0 [] ent0).1.intendedSpeed| ≤ 0.0001 →
      ∀ c ∈ (fighterControl fs7 keys0 [] ent0).2.2,
        ¬usesChannel Channel.forward c ∧ ¬usesChannel Channel.reverse c) ∧
    (relativeVelocityOf ent0 13 <
        (fighterControl fs7 keys0 [] ent0).1.intendedSpeed - 0.0001 →
      BurnCmd.burnCapped Channel.forward 0.5
          (getNeededBurnForAcc ent0
            ((fighterControl fs7 keys0 [] ent0).1.intendedSpeed -
              relativeVelocityOf ent0 13)) ∈
        (fighterControl fs7 keys0 [] ent0).2.2) ∧
    (relativeVelocityOf ent0 13 >
        (fighterControl fs7 keys0 [] ent0).1.intendedSpeed + 0.0001 →
      BurnCmd.burnCapped Channel.reverse 0.5
          (getNeededBurnForAcc ent0
            (relativeVelocityOf ent0 13 -
              (fighterControl fs7 keys0 [] ent0).1.intendedSpeed)) ∈
        (fighterControl fs7 keys0 [] ent0).2.2) :=
  compensated_deadband fs7 keys0 [] ent0 (by
    rw [fighterModeLoop]
    norm_num [fs7, FM_COMPENSATED])

/-- C8: for a camera bound to a followed entity, one camera-control tick
recomputes the camera's position and orientation exactly as the composition
of the followed entity's current transform with the fixed local follow
offset (`followModePosition` / `followModeOrientation`), and two cameras
bound to the same entity with the same offsets end the tick with identical
position and orientation regardless of any other prior state (velocity and
angular velocity included). -/
theorem camera_follow_recompute (keys keys2 : ℕ → Bool) (c c2 : CameraState)
    (obj : FollowedObject) (h : c.followedObject = some obj)
    (h2 : c2.followedObject = some obj)
    (hp : c2.followPosition = c.followPosition)
    (ho : c2.followOrientation = c.followOrientation) :
    (controlCamera keys c).position = followModePosition obj c.followPosition ∧
      (controlCamera keys c).orientation = followModeOrientation obj c.followOrientation ∧
      (controlCamera keys2 c2).position = (controlCamera keys c).position ∧
      (controlCamera keys2 c2).orientation = (controlCamera keys c).orientation := by
  have key : ∀ (ks : ℕ → Bool) (cam : CameraState), cam.followedObject = some obj →
      (controlCamera ks cam).position = followModePosition obj cam.followPosition ∧
        (controlCamera ks cam).orientation =
          followModeOrientation obj cam.followOrientation := by
    intro ks cam hc
    unfold controlCamera
    simp only [hc]
    exact ⟨trivial, trivial⟩
  refine ⟨(key keys c h).1, (key keys c h).2, ?_, ?_⟩
  · rw [(key keys2 c2 h2).1, (key keys c h).1, hp]
  · rw [(key keys2 c2 h2).2, (key keys c h).2, ho]

/-- A followed entity at the identity transform. -/
noncomputable def obj0 : FollowedObject := ⟨idMat, idMat⟩

/-- A camera bound to `obj0` with identity offsets and zero velocities. -/
noncomputable def cam0 : CameraState :=
  { controllableDirection := false
    controllablePosition := false
    angularVelocity0 := 0
    angularVelocity1 := 0
    velocity0 := 0
    velocity1 := 0
    velocity2 := 0
    maxTurn := 1
    angularAcceleration := 1
    maxSpeed := 1
    acceleration := 1
    position := idMat
    orientation := idMat
    fov := 45
    followedObject := some obj0
    followPosition := idMat
    followOrientation := idMat }

/-- The same camera with different prior velocity and angular velocity. -/
noncomputable def cam1 : CameraState := { cam0 with velocity0 := 5, angularVelocity0 := 2 }

/-- Witness for the follow-mode theorem: `cam0` and `cam1` differ only in
prior velocity state and end the tick at the same recomputed transform. -/
theorem camera_follow_recompute_witness :
    (controlCamera keys0 cam0).position = followModePosition obj0 cam0.followPosition ∧
      (controlCamera keys0 cam0).orientation =
        followModeOrientation obj0 cam0.followOrientation ∧
      (controlCamera keys0 cam1).position = (controlCamera keys0 cam0).position ∧
      (controlCamera keys0 cam1).orientation = (controlCamera keys0 cam0).orientation :=
  camera_follow_recompute keys0 keys0 cam0 cam1 obj0 rfl rfl rfl rfl

end Armada
